import Mathlib

/-!
Verification of the resource-governance layer of the CodeMarIA repository
(`src/code_maria/rate_limiter.py` and `src/code_maria/cache_manager.py`)
against its natural-language specification.

Timestamps and durations (Python `time.time()` floats) are modelled as an
ordered integer time domain (the governance logic only ever adds, subtracts and
compares them); latencies and derived ratios, where genuine division occurs,
are modelled as rationals.
Python `dict`s (which preserve insertion order and have unique keys) are
modelled as association lists with the helpers below.
-/

/-- Association-list lookup, mirroring Python `d[k]` / `d.get(k)`:
returns the binding of the first matching key. -/
def alookup {α : Type} : List (String × α) → String → Option α
  | [], _ => none
  | (k, v) :: rest, key => if k = key then some v else alookup rest key

/-- Association-list update, mirroring Python `d[k] = v`: replaces the binding
in place if the key is present, appends it otherwise (insertion order kept). -/
def aset {α : Type} : List (String × α) → String → α → List (String × α)
  | [], key, v => [(key, v)]
  | (k, w) :: rest, key, v =>
      if k = key then (key, v) :: rest else (k, w) :: aset rest key v

/-- Association-list removal, mirroring Python `del d[k]`. -/
def aremove {α : Type} : List (String × α) → String → List (String × α)
  | [], _ => []
  | (k, w) :: rest, key => if k = key then rest else (k, w) :: aremove rest key

theorem alookup_aset_self {α : Type} (l : List (String × α)) (k : String) (v : α) :
    alookup (aset l k v) k = some v := by
  induction l with
  | nil => simp [aset, alookup]
  | cons p rest ih =>
      by_cases h : p.1 = k
      · simp [aset, alookup, h]
      · simp [aset, alookup, h, ih]

theorem alookup_aset_ne {α : Type} (l : List (String × α)) (k k' : String) (v : α)
    (h : k ≠ k') : alookup (aset l k v) k' = alookup l k' := by
  induction l with
  | nil => simp [aset, alookup, h]
  | cons p rest ih =>
      by_cases hp : p.1 = k
      · subst hp
        simp [aset, alookup, h]
      · simp only [aset, if_neg hp]
        by_cases hq : p.1 = k'
        · simp [alookup, hq]
        · simp [alookup, hq, ih]

/-- Lookup with a default, mirroring `collections.defaultdict` access. -/
def lookupD {α : Type} (l : List (String × α)) (k : String) (d : α) : α :=
  (alookup l k).getD d

theorem length_filter_mono {α : Type} {p q : α → Bool} (l : List α)
    (h : ∀ a ∈ l, p a = true → q a = true) :
    (l.filter p).length ≤ (l.filter q).length := by
  induction l with
  | nil => simp
  | cons x rest ih =>
      have hrest : ∀ a ∈ rest, p a = true → q a = true := fun a ha => h a (by simp [ha])
      by_cases hp : p x = true
      · have hq : q x = true := h x (by simp) hp
        simp only [List.filter_cons, hp, hq, if_true, List.length_cons]
        exact Nat.succ_le_succ (ih hrest)
      · by_cases hq : q x = true
        · simp only [List.filter_cons, hp, hq, if_true, if_false, List.length_cons]
          exact Nat.le_succ_of_le (ih hrest)
        · simp only [List.filter_cons, hp, hq, if_false]
          exact ih hrest

theorem filter_filter_of_imp {α : Type} {p q : α → Bool} (l : List α)
    (h : ∀ a ∈ l, q a = true → p a = true) :
    (l.filter p).filter q = l.filter q := by
  induction l with
  | nil => simp
  | cons x rest ih =>
      have hrest : ∀ a ∈ rest, q a = true → p a = true := fun a ha => h a (by simp [ha])
      by_cases hq : q x = true
      · have hp : p x = true := h x (by simp) hq
        simp [List.filter_cons, hp, hq, ih hrest]
      · by_cases hp : p x = true
        · simp [List.filter_cons, hp, hq, ih hrest]
        · simp [List.filter_cons, hp, hq, ih hrest]

/-- Characters stripped by Python `str.strip()` (the ASCII whitespace cases). -/
def isPySpace (c : Char) : Bool :=
  c == ' ' || c == '\t' || c == '\n' || c == '\x0d' || c == '\x0b' || c == '\x0c'

def stripList (l : List Char) : List Char :=
  ((l.dropWhile isPySpace).reverse.dropWhile isPySpace).reverse

/-- Python `str.strip()`. -/
def pyStrip (s : String) : String := String.mk (stripList s.data)

/-- One character of the service-name alphabet `[a-zA-Z0-9_-]`
(`re.match` in `check_limit` / `acquire` / `_validate_and_update_limits`). -/
def isNameChar (c : Char) : Bool :=
  c.isAlpha || c.isDigit || c == '_' || c == '-'

/-- Python `re.match` with pattern `^[a-zA-Z0-9_-]+$` on an already-stripped string
(for stripped strings the `$`-before-final-newline quirk cannot fire). -/
def validName (s : String) : Bool :=
  !s.data.isEmpty && s.data.all isNameChar

theorem isNameChar_not_pySpace {c : Char} (h : isNameChar c = true) :
    isPySpace c = false := by
  by_contra hs
  have hs' : isPySpace c = true := by
    cases hval : isPySpace c
    · exact absurd hval hs
    · rfl
  unfold isPySpace at hs'
  simp only [Bool.or_eq_true, beq_iff_eq] at hs'
  rcases hs' with ((((h1 | h1) | h1) | h1) | h1) | h1 <;>
    (subst h1; simp [isNameChar, Char.isAlpha, Char.isDigit, Char.isUpper, Char.isLower] at h)

theorem dropWhile_eq_self_of_all {l : List Char}
    (h : ∀ c ∈ l, isNameChar c = true) : l.dropWhile isPySpace = l := by
  cases l with
  | nil => rfl
  | cons c rest =>
      have : isPySpace c = false := isNameChar_not_pySpace (h c (by simp))
      simp [List.dropWhile_cons, this]

theorem pyStrip_eq_self_of_validName {s : String} (h : validName s = true) :
    pyStrip s = s := by
  unfold validName at h
  simp only [Bool.and_eq_true, List.all_eq_true] at h
  obtain ⟨-, hall⟩ := h
  have h1 : s.data.dropWhile isPySpace = s.data := dropWhile_eq_self_of_all hall
  have h2 : s.data.reverse.dropWhile isPySpace = s.data.reverse := by
    apply dropWhile_eq_self_of_all
    intro c hc
    exact hall c (List.mem_reverse.mp hc)
  unfold pyStrip stripList
  rw [h1, h2, List.reverse_reverse]

theorem validName_ne_empty {s : String} (h : validName s = true) : s ≠ "" := by
  intro hs
  subst hs
  simp [validName, List.isEmpty] at h

/-! ## Layered cache (`src/code_maria/cache_manager.py`)

`CacheManager` state: L1 = `memory_cache` (dict full_key → item), L2 = one
JSON file per full key in `cache_dir` (modelled as an association list keyed
by full key), plus the `stats` counters touched by get/set.  `value` payloads
are opaque (`α`).  Disk-write success for `set(..., persist=True)` is
injected as the boolean `diskOk`. -/

structure CacheEntry (α : Type) where
  value : α
  expiry : ℤ
  nspace : Option String
  deriving DecidableEq, Repr

structure CacheState (α : Type) where
  ttl : ℤ                                      -- constructor arg, validated > 0
  maxSize : ℕ                                  -- constructor arg, validated > 0
  memoryCache : List (String × CacheEntry α)   -- L1
  disk : List (String × CacheEntry α)          -- L2: file "{full_key}.json"
  hits : ℕ
  misses : ℕ
  sets : ℕ
  evictions : ℕ
  totalSaved : ℕ
  deriving DecidableEq, Repr

/-- `full_key = f"{namespace}:{key}" if namespace else key` (lines 134, 179,
227): note `if namespace` is falsy for both `None` and the empty string. -/
def fullKey (key : String) (ns : Option String) : String :=
  match ns with
  | some n => if n = "" then key else n ++ ":" ++ key
  | none => key

/-- `_remove_item` (lines 111-121): delete from the memory dict and unlink the
disk file, each if present. -/
def removeItem {α : Type} (s : CacheState α) (key : String) : CacheState α :=
  { s with memoryCache := aremove s.memoryCache key, disk := aremove s.disk key }

/-- `CacheManager.get` (lines 123-163) after the full key is computed:
memory first (purging on expiry and falling through to the now-deleted disk
file, hence a miss), then disk with promotion into memory on an unexpired hit. -/
def getByFullKey {α : Type} (s : CacheState α) (fk : String) (now : ℤ) :
    Option α × CacheState α :=
  match alookup s.memoryCache fk with
  | some item =>
      if now ≤ item.expiry then
        (some item.value, { s with hits := s.hits + 1 })
      else
        -- expired in memory: `_remove_item` also unlinks the disk file, so the
        -- subsequent disk check finds nothing and the lookup is a miss
        (none, { (removeItem s fk) with misses := (removeItem s fk).misses + 1 })
  | none =>
      match alookup s.disk fk with
      | some item =>
          if now ≤ item.expiry then
            (some item.value,
              { s with memoryCache := aset s.memoryCache fk item, hits := s.hits + 1 })
          else
            (none, { (removeItem s fk) with misses := (removeItem s fk).misses + 1 })
      | none => (none, { s with misses := s.misses + 1 })

def cacheGet {α : Type} (s : CacheState α) (key : String) (ns : Option String)
    (now : ℤ) : Option α × CacheState α :=
  getByFullKey s (fullKey key ns) now

/-- The key chosen by `min(self.memory_cache.keys(), key=lambda k: ...expiry)`
(lines 184-187): first key in insertion order among those of minimal expiry. -/
def minExpiryGo {α : Type} (bk : String) (be : ℤ) :
    List (String × CacheEntry α) → String × ℤ
  | [] => (bk, be)
  | (k, e) :: rest =>
      if e.expiry < be then minExpiryGo k e.expiry rest else minExpiryGo bk be rest

def minExpiryPair {α : Type} : List (String × CacheEntry α) → Option (String × ℤ)
  | [] => none
  | (k, e) :: rest => some (minExpiryGo k e.expiry rest)

/-- Shared tail of `CacheManager.set` after the capacity check (lines 191-213):
build the item, write it to L1, bump counters, then persist iff requested;
a failed disk write returns `false` without rolling back the L1 write. -/
def setInsert {α : Type} (s : CacheState α) (fk : String) (v : α)
    (ns : Option String) (persist : Bool) (diskOk : Bool) (now : ℤ) :
    Bool × CacheState α :=
  let item : CacheEntry α := { value := v, expiry := now + s.ttl, nspace := ns }
  let s2 := { s with memoryCache := aset s.memoryCache fk item,
                     sets := s.sets + 1, totalSaved := s.totalSaved + 1 }
  if persist then
    if diskOk then (true, { s2 with disk := aset s2.disk fk item })
    else (false, s2)
  else (true, s2)

/-- `CacheManager.set` (lines 165-217): evict the minimal-expiry entry when L1
is at capacity (via `_remove_item`, which also unlinks its disk file), then
insert `{value, expiry = now + ttl, namespace}`. -/
def cacheSet {α : Type} (s : CacheState α) (key : String) (v : α)
    (ns : Option String) (persist : Bool) (diskOk : Bool) (now : ℤ) :
    Bool × CacheState α :=
  let fk := fullKey key ns
  if s.memoryCache.length ≥ s.maxSize then
    match minExpiryPair s.memoryCache with
    | none =>
        -- only reachable when max_size = 0: `min([])` raises ValueError,
        -- caught by the outer handler (line 215) → return False, no mutation
        (false, s)
    | some (oldestKey, _) =>
        let s1 := { (removeItem s oldestKey) with
                      evictions := (removeItem s oldestKey).evictions + 1 }
        setInsert s1 fk v ns persist diskOk now
  else
    setInsert s fk v ns persist diskOk now

/-- `CacheManager.invalidate` (lines 219-229). -/
def cacheInvalidate {α : Type} (s : CacheState α) (key : String)
    (ns : Option String) : CacheState α :=
  removeItem s (fullKey key ns)

/-! ### Properties of the minimal-expiry selection -/

theorem minExpiryGo_snd_le_init {α : Type} :
    ∀ (rest : List (String × CacheEntry α)) (bk : String) (be : ℤ),
      (minExpiryGo bk be rest).2 ≤ be
  | [], _, _ => le_refl _
  | (_, e) :: rest, bk, be => by
      unfold minExpiryGo
      by_cases h : e.expiry < be
      · simp only [if_pos h]
        exact le_trans (minExpiryGo_snd_le_init rest _ e.expiry) (le_of_lt h)
      · simp only [if_neg h]
        exact minExpiryGo_snd_le_init rest bk be

theorem minExpiryGo_le {α : Type} :
    ∀ (rest : List (String × CacheEntry α)) (bk : String) (be : ℤ),
      ∀ p ∈ rest, (minExpiryGo bk be rest).2 ≤ p.2.expiry
  | [], _, _ => by intro p hp; cases hp
  | (k, e) :: rest, bk, be => by
      intro p hp
      unfold minExpiryGo
      rcases List.mem_cons.mp hp with hp | hp
      · subst hp
        by_cases h : e.expiry < be
        · simp only [if_pos h]
          exact minExpiryGo_snd_le_init rest _ _
        · simp only [if_neg h]
          exact le_trans (minExpiryGo_snd_le_init rest bk be) (le_of_not_lt h)
      · by_cases h : e.expiry < be
        · simp only [if_pos h]
          exact minExpiryGo_le rest k e.expiry p hp
        · simp only [if_neg h]
          exact minExpiryGo_le rest bk be p hp

theorem minExpiryGo_shape {α : Type} :
    ∀ (rest : List (String × CacheEntry α)) (bk : String) (be : ℤ),
      minExpiryGo bk be rest = (bk, be) ∨
        ∃ ent, ((minExpiryGo bk be rest).1, ent) ∈ rest ∧
          ent.expiry = (minExpiryGo bk be rest).2
  | [], _, _ => Or.inl rfl
  | (k, e) :: rest, bk, be => by
      unfold minExpiryGo
      by_cases h : e.expiry < be
      · simp only [if_pos h]
        rcases minExpiryGo_shape rest k e.expiry with heq | ⟨ent, hm, hexp⟩
        · right
          refine ⟨e, ?_, ?_⟩
          · rw [heq]; exact List.mem_cons_self _ _
          · rw [heq]
        · exact Or.inr ⟨ent, List.mem_cons_of_mem _ hm, hexp⟩
      · simp only [if_neg h]
        rcases minExpiryGo_shape rest bk be with heq | ⟨ent, hm, hexp⟩
        · exact Or.inl heq
        · exact Or.inr ⟨ent, List.mem_cons_of_mem _ hm, hexp⟩

theorem minExpiryPair_mem {α : Type} {l : List (String × CacheEntry α)}
    {k : String} {e : ℤ} (h : minExpiryPair l = some (k, e)) :
    ∃ ent, (k, ent) ∈ l ∧ ent.expiry = e := by
  cases l with
  | nil => simp [minExpiryPair] at h
  | cons p rest =>
      obtain ⟨pk, pe⟩ := p
      simp only [minExpiryPair, Option.some.injEq] at h
      have hk : (minExpiryGo pk pe.expiry rest).1 = k := by rw [h]
      have he : (minExpiryGo pk pe.expiry rest).2 = e := by rw [h]
      rcases minExpiryGo_shape rest pk pe.expiry with heq | ⟨ent, hm, hexp⟩
      · have hpk : pk = k := by rw [← hk, heq]
        have hpe : pe.expiry = e := by rw [← he, heq]
        subst hpk
        exact ⟨pe, List.mem_cons_self _ _, hpe⟩
      · rw [hk] at hm
        exact ⟨ent, List.mem_cons_of_mem _ hm, hexp.trans he⟩

theorem minExpiryPair_le {α : Type} {l : List (String × CacheEntry α)}
    {k : String} {e : ℤ} (h : minExpiryPair l = some (k, e)) :
    ∀ p ∈ l, e ≤ p.2.expiry := by
  cases l with
  | nil => simp [minExpiryPair] at h
  | cons q rest =>
      obtain ⟨qk, qe⟩ := q
      simp only [minExpiryPair, Option.some.injEq] at h
      have he : e = (minExpiryGo qk qe.expiry rest).2 := by rw [h]
      intro p hp
      rcases List.mem_cons.mp hp with hp | hp
      · subst hp
        rw [he]
        exact minExpiryGo_snd_le_init rest qk qe.expiry
      · rw [he]
        exact minExpiryGo_le rest qk qe.expiry p hp

theorem minExpiryPair_isSome {α : Type} {l : List (String × CacheEntry α)}
    (h : l ≠ []) : (minExpiryPair l).isSome := by
  cases l with
  | nil => exact absurd rfl h
  | cons p rest => simp [minExpiryPair]

theorem setInsert_snd_memoryCache {α : Type} (s : CacheState α) (fk : String)
    (v : α) (ns : Option String) (persist diskOk : Bool) (now : ℤ) :
    (setInsert s fk v ns persist diskOk now).2.memoryCache
      = aset s.memoryCache fk { value := v, expiry := now + s.ttl, nspace := ns } := by
  cases persist <;> cases diskOk <;> rfl

theorem setInsert_snd_evictions {α : Type} (s : CacheState α) (fk : String)
    (v : α) (ns : Option String) (persist diskOk : Bool) (now : ℤ) :
    (setInsert s fk v ns persist diskOk now).2.evictions = s.evictions := by
  cases persist <;> cases diskOk <;> rfl

theorem cacheSet_alookup {α : Type} (s : CacheState α) (k : String) (v : α)
    (ns : Option String) (persist diskOk : Bool) (now : ℤ)
    (hmax : 0 < s.maxSize) :
    alookup (cacheSet s k v ns persist diskOk now).2.memoryCache (fullKey k ns)
      = some { value := v, expiry := now + s.ttl, nspace := ns } := by
  unfold cacheSet
  by_cases hcap : s.memoryCache.length ≥ s.maxSize
  · simp only [if_pos hcap]
    have hne : s.memoryCache ≠ [] := by
      intro hnil
      rw [hnil] at hcap
      simp only [List.length_nil] at hcap
      omega
    obtain ⟨pr, hpr⟩ := Option.isSome_iff_exists.mp (minExpiryPair_isSome hne)
    obtain ⟨ek, ee⟩ := pr
    rw [hpr]
    rw [setInsert_snd_memoryCache]
    exact alookup_aset_self ..
  · simp only [if_neg hcap]
    rw [setInsert_snd_memoryCache]
    exact alookup_aset_self ..


theorem getByFullKey_fst_live {α : Type} (s : CacheState α) (fk : String)
    (now : ℤ) (item : CacheEntry α)
    (h : alookup s.memoryCache fk = some item) (hc : now ≤ item.expiry) :
    (getByFullKey s fk now).1 = some item.value := by
  unfold getByFullKey
  rw [h]
  simp [hc]

theorem getByFullKey_fst_expired {α : Type} (s : CacheState α) (fk : String)
    (now : ℤ) (item : CacheEntry α)
    (h : alookup s.memoryCache fk = some item) (hc : ¬ now ≤ item.expiry) :
    (getByFullKey s fk now).1 = none := by
  unfold getByFullKey
  rw [h]
  simp [hc]

/-- Claim C3: `set(k, v)` followed immediately (no clock advance) by `get(k)`
returns `v`; once strictly more than TTL seconds have elapsed since the set,
`get(k)` returns `None` (the entry is purged from memory, and `_remove_item`
also deletes any disk copy before the disk branch runs).  `ttl > 0` and
`max_size > 0` are enforced by the `CacheManager` constructor (lines 39-44). -/
theorem C3_cache_round_trip {α : Type} (s : CacheState α) (k : String) (v : α)
    (ns : Option String) (persist diskOk : Bool) (now t : ℤ)
    (hmax : 0 < s.maxSize) (httl : 0 < s.ttl) (hlate : now + s.ttl < t) :
    ((cacheGet (cacheSet s k v ns persist diskOk now).2 k ns now).1 = some v) ∧
    ((cacheGet (cacheSet s k v ns persist diskOk now).2 k ns t).1 = none) := by
  have hml := cacheSet_alookup s k v ns persist diskOk now hmax
  constructor
  · unfold cacheGet
    exact getByFullKey_fst_live _ _ _ _ hml (by simp; omega)
  · unfold cacheGet
    exact getByFullKey_fst_expired _ _ _ _ hml (by simp; omega)

theorem C3_cache_round_trip_witness :
    0 < (CacheState.mk 100 2 [] [] 0 0 0 0 0 : CacheState ℕ).maxSize ∧
    0 < (CacheState.mk 100 2 [] [] 0 0 0 0 0 : CacheState ℕ).ttl ∧
    (0 : ℤ) + (CacheState.mk 100 2 [] [] 0 0 0 0 0 : CacheState ℕ).ttl < 200 ∧
    (((cacheGet (cacheSet
          (CacheState.mk 100 2 [] [] 0 0 0 0 0) ("k") (7 : ℕ) none false true 0).2
        ("k") none 0).1 = some 7) ∧
     ((cacheGet (cacheSet
          (CacheState.mk 100 2 [] [] 0 0 0 0 0) ("k") (7 : ℕ) none false true 0).2
        ("k") none 200).1 = none)) :=
  ⟨by decide, by decide, by decide,
    C3_cache_round_trip (CacheState.mk 100 2 [] [] 0 0 0 0 0) ("k") 7 none false true
      0 200 (by decide) (by decide) (by decide)⟩

/-- Claim C4: with at least `max_size` entries in L1, a `set` evicts exactly one
existing entry — one of minimal expiry (lines 183-189) — before inserting; a
`set` on a cache below capacity evicts nothing.  `max_size > 0` is enforced by
the constructor (lines 42-44). -/
theorem C4_capacity_eviction {α : Type} (s : CacheState α) (k : String) (v : α)
    (ns : Option String) (persist diskOk : Bool) (now : ℤ)
    (hmax : 0 < s.maxSize) :
    (s.memoryCache.length ≥ s.maxSize →
      ∃ ek ee,
        minExpiryPair s.memoryCache = some (ek, ee) ∧
        (∃ ent, (ek, ent) ∈ s.memoryCache ∧ ent.expiry = ee) ∧
        (∀ p ∈ s.memoryCache, ee ≤ p.2.expiry) ∧
        (cacheSet s k v ns persist diskOk now).2.memoryCache
          = aset (aremove s.memoryCache ek) (fullKey k ns)
              { value := v, expiry := now + s.ttl, nspace := ns } ∧
        (cacheSet s k v ns persist diskOk now).2.evictions = s.evictions + 1) ∧
    (s.memoryCache.length < s.maxSize →
      (cacheSet s k v ns persist diskOk now).2.memoryCache
        = aset s.memoryCache (fullKey k ns)
            { value := v, expiry := now + s.ttl, nspace := ns } ∧
      (cacheSet s k v ns persist diskOk now).2.evictions = s.evictions) := by
  constructor
  · intro hcap
    have hne : s.memoryCache ≠ [] := by
      intro hnil
      rw [hnil] at hcap
      simp only [List.length_nil] at hcap
      omega
    obtain ⟨pr, hpr⟩ := Option.isSome_iff_exists.mp (minExpiryPair_isSome hne)
    obtain ⟨ek, ee⟩ := pr
    refine ⟨ek, ee, hpr, minExpiryPair_mem hpr, minExpiryPair_le hpr, ?_, ?_⟩
    · unfold cacheSet
      rw [if_pos hcap, hpr, setInsert_snd_memoryCache]
      rfl
    · unfold cacheSet
      rw [if_pos hcap, hpr, setInsert_snd_evictions]
      rfl
  · intro hlt
    have hcap : ¬ s.memoryCache.length ≥ s.maxSize := by omega
    constructor
    · unfold cacheSet
      rw [if_neg hcap, setInsert_snd_memoryCache]
    · unfold cacheSet
      rw [if_neg hcap, setInsert_snd_evictions]

theorem C4_capacity_eviction_witness :
    0 < (CacheState.mk 50 1 [(("x"), CacheEntry.mk 3 9 none)] [] 0 0 0 0 0
          : CacheState ℕ).maxSize ∧
    (((CacheState.mk 50 1 [(("x"), CacheEntry.mk 3 9 none)] [] 0 0 0 0 0
          : CacheState ℕ).memoryCache.length ≥ 1 →
      ∃ ek ee,
        minExpiryPair (CacheState.mk 50 1 [(("x"), CacheEntry.mk (3:ℕ) 9 none)] [] 0 0 0 0 0
          : CacheState ℕ).memoryCache = some (ek, ee) ∧
        (∃ ent, (ek, ent) ∈ [(("x"), CacheEntry.mk (3:ℕ) 9 none)] ∧ ent.expiry = ee) ∧
        (∀ p ∈ [(("x"), CacheEntry.mk (3:ℕ) 9 none)], ee ≤ p.2.expiry) ∧
        (cacheSet (CacheState.mk 50 1 [(("x"), CacheEntry.mk 3 9 none)] [] 0 0 0 0 0)
            ("y") (4:ℕ) none false true 10).2.memoryCache
          = aset (aremove [(("x"), CacheEntry.mk (3:ℕ) 9 none)] ek) ("y")
              { value := 4, expiry := 10 + 50, nspace := none } ∧
        (cacheSet (CacheState.mk 50 1 [(("x"), CacheEntry.mk 3 9 none)] [] 0 0 0 0 0)
            ("y") (4:ℕ) none false true 10).2.evictions = 0 + 1) ∧
     ([(("x"), CacheEntry.mk (3:ℕ) 9 none)].length < 1 →
      (cacheSet (CacheState.mk 50 1 [(("x"), CacheEntry.mk 3 9 none)] [] 0 0 0 0 0)
          ("y") (4:ℕ) none false true 10).2.memoryCache
        = aset [(("x"), CacheEntry.mk (3:ℕ) 9 none)] ("y")
            { value := 4, expiry := 10 + 50, nspace := none } ∧
      (cacheSet (CacheState.mk 50 1 [(("x"), CacheEntry.mk 3 9 none)] [] 0 0 0 0 0)
          ("y") (4:ℕ) none false true 10).2.evictions = 0)) :=
  ⟨by decide,
    C4_capacity_eviction (CacheState.mk 50 1 [(("x"), CacheEntry.mk 3 9 none)] [] 0 0 0 0 0)
      ("y") 4 none false true 10 (by decide)⟩

theorem cacheSet_fst_persist_noDisk {α : Type} (s : CacheState α) (k : String)
    (v : α) (ns : Option String) (now : ℤ) (hmax : 0 < s.maxSize) :
    (cacheSet s k v ns true false now).1 = false := by
  unfold cacheSet
  by_cases hcap : s.memoryCache.length ≥ s.maxSize
  · rw [if_pos hcap]
    have hne : s.memoryCache ≠ [] := by
      intro hnil
      rw [hnil] at hcap
      simp only [List.length_nil] at hcap
      omega
    obtain ⟨pr, hpr⟩ := Option.isSome_iff_exists.mp (minExpiryPair_isSome hne)
    obtain ⟨ek, ee⟩ := pr
    rw [hpr]
    rfl
  · rw [if_neg hcap]
    rfl

/-- Claim C8: a `set` with `persist=True` whose disk write fails returns
`False` (line 211), yet the entry was already written to L1 (line 199) and is
not rolled back, so a later `get` before TTL expiry still returns the value. -/
theorem C8_failed_persist_no_rollback {α : Type} (s : CacheState α) (k : String)
    (v : α) (ns : Option String) (now t : ℤ)
    (hmax : 0 < s.maxSize) (hfresh : t ≤ now + s.ttl) :
    ((cacheSet s k v ns true false now).1 = false) ∧
    (alookup (cacheSet s k v ns true false now).2.memoryCache (fullKey k ns)
      = some { value := v, expiry := now + s.ttl, nspace := ns }) ∧
    ((cacheGet (cacheSet s k v ns true false now).2 k ns t).1 = some v) := by
  have hml := cacheSet_alookup s k v ns true false now hmax
  exact ⟨cacheSet_fst_persist_noDisk s k v ns now hmax, hml,
    getByFullKey_fst_live _ _ _ _ hml (by simpa using hfresh)⟩

theorem C8_failed_persist_no_rollback_witness :
    0 < (CacheState.mk 100 2 [] [] 0 0 0 0 0 : CacheState ℕ).maxSize ∧
    (50 : ℤ) ≤ 0 + (CacheState.mk 100 2 [] [] 0 0 0 0 0 : CacheState ℕ).ttl ∧
    (((cacheSet (CacheState.mk 100 2 [] [] 0 0 0 0 0) ("k") (7:ℕ) none true false 0).1
        = false) ∧
     (alookup (cacheSet (CacheState.mk 100 2 [] [] 0 0 0 0 0) ("k") (7:ℕ) none true false 0).2.memoryCache
        ("k") = some { value := 7, expiry := 0 + 100, nspace := none }) ∧
     ((cacheGet (cacheSet (CacheState.mk 100 2 [] [] 0 0 0 0 0) ("k") (7:ℕ) none true false 0).2
        ("k") none 50).1 = some 7)) :=
  ⟨by decide, by decide,
    C8_failed_persist_no_rollback (CacheState.mk 100 2 [] [] 0 0 0 0 0) ("k") 7 none 0 50
      (by decide) (by decide)⟩

/-- The namespace-insensitive content of a cache entry (value and expiry):
`get` reads exactly these two fields of an item. -/
def stripTag {α : Type} (e : CacheEntry α) : α × ℤ := (e.value, e.expiry)

def mapStrip {α : Type} (l : List (String × CacheEntry α)) : List (String × (α × ℤ)) :=
  l.map (fun p => (p.1, stripTag p.2))

/-- Two cache states that agree on everything `get`/`set`/`invalidate`/`stats`
can observe; they may differ only in the stored per-entry namespace tag
(which only `clear_namespace` reads). -/
def CacheObsEq {α : Type} (s1 s2 : CacheState α) : Prop :=
  s1.ttl = s2.ttl ∧ s1.maxSize = s2.maxSize ∧
  mapStrip s1.memoryCache = mapStrip s2.memoryCache ∧
  mapStrip s1.disk = mapStrip s2.disk ∧
  s1.hits = s2.hits ∧ s1.misses = s2.misses ∧ s1.sets = s2.sets ∧
  s1.evictions = s2.evictions ∧ s1.totalSaved = s2.totalSaved

theorem mapStrip_aset {α : Type} (l : List (String × CacheEntry α)) (k : String)
    {e1 e2 : CacheEntry α} (h : stripTag e1 = stripTag e2) :
    mapStrip (aset l k e1) = mapStrip (aset l k e2) := by
  induction l with
  | nil => simp [aset, mapStrip, h]
  | cons p rest ih =>
      by_cases hp : p.1 = k
      · simp [aset, mapStrip, hp, h]
      · simp only [aset, if_neg hp, mapStrip, List.map_cons]
        simp only [mapStrip] at ih
        rw [ih]

theorem setInsert_obs {α : Type} (s : CacheState α) (fk : String) (v : α)
    (ns1 ns2 : Option String) (persist diskOk : Bool) (now : ℤ) :
    (setInsert s fk v ns1 persist diskOk now).1
      = (setInsert s fk v ns2 persist diskOk now).1 ∧
    CacheObsEq (setInsert s fk v ns1 persist diskOk now).2
      (setInsert s fk v ns2 persist diskOk now).2 := by
  have hstrip : stripTag { value := v, expiry := now + s.ttl, nspace := ns1 }
      = stripTag { value := v, expiry := now + s.ttl, nspace := ns2 } := rfl
  cases persist with
  | false =>
      cases diskOk <;>
        exact ⟨rfl, rfl, rfl, mapStrip_aset s.memoryCache fk hstrip, rfl,
          rfl, rfl, rfl, rfl, rfl⟩
  | true =>
      cases diskOk with
      | false =>
          exact ⟨rfl, rfl, rfl, mapStrip_aset s.memoryCache fk hstrip, rfl,
            rfl, rfl, rfl, rfl, rfl⟩
      | true =>
          exact ⟨rfl, rfl, rfl, mapStrip_aset s.memoryCache fk hstrip,
            mapStrip_aset s.disk fk hstrip, rfl, rfl, rfl, rfl, rfl⟩

theorem cacheObsEq_refl {α : Type} (s : CacheState α) : CacheObsEq s s :=
  ⟨rfl, rfl, rfl, rfl, rfl, rfl, rfl, rfl, rfl⟩

/-- Claim C10 (amended): for a NON-EMPTY namespace `ns`, `get(k, ns)` and
`invalidate(k, ns)` are observably identical to the same operation on key
`ns ++ ":" ++ k` with no namespace; `set(k, v, ns)` returns the same result and
produces an observably equal cache (`CacheObsEq`), differing only in the stored
per-entry namespace tag, which only `clear_namespace` reads; and any two
(key, namespace) pairs with the same full key alias the same entry.  The
original claim fails for the empty-string namespace, which `if namespace`
treats as absent (see the counterexample). -/
theorem C10_namespaced_addressing {α : Type} (s : CacheState α) (k ns : String)
    (v : α) (persist diskOk : Bool) (now : ℤ) (hns : ns ≠ "") :
    (cacheGet s k (some ns) now = cacheGet s (ns ++ ":" ++ k) none now) ∧
    (cacheInvalidate s k (some ns) = cacheInvalidate s (ns ++ ":" ++ k) none) ∧
    ((cacheSet s k v (some ns) persist diskOk now).1
      = (cacheSet s (ns ++ ":" ++ k) v none persist diskOk now).1) ∧
    CacheObsEq (cacheSet s k v (some ns) persist diskOk now).2
      (cacheSet s (ns ++ ":" ++ k) v none persist diskOk now).2 ∧
    (∀ k1 k2 (ns1 ns2 : Option String), fullKey k1 ns1 = fullKey k2 ns2 →
        cacheGet s k1 ns1 now = cacheGet s k2 ns2 now) := by
  have hfk : fullKey k (some ns) = fullKey (ns ++ ":" ++ k) none := by
    simp [fullKey, hns]
  refine ⟨?_, ?_, ?_, ?_, ?_⟩
  · unfold cacheGet
    rw [hfk]
  · unfold cacheInvalidate
    rw [hfk]
  · simp only [cacheSet]
    rw [hfk]
    by_cases hcap : s.memoryCache.length ≥ s.maxSize
    · rw [if_pos hcap]
      rw [if_pos hcap]
      rcases minExpiryPair s.memoryCache with _ | ⟨ek, ee⟩
      · rfl
      · exact (setInsert_obs _ _ _ _ _ _ _ _).1
    · rw [if_neg hcap]
      rw [if_neg hcap]
      exact (setInsert_obs _ _ _ _ _ _ _ _).1
  · simp only [cacheSet]
    rw [hfk]
    by_cases hcap : s.memoryCache.length ≥ s.maxSize
    · rw [if_pos hcap]
      rw [if_pos hcap]
      rcases minExpiryPair s.memoryCache with _ | ⟨ek, ee⟩
      · exact cacheObsEq_refl s
      · exact (setInsert_obs _ _ _ _ _ _ _ _).2
    · rw [if_neg hcap]
      rw [if_neg hcap]
      exact (setInsert_obs _ _ _ _ _ _ _ _).2
  · intro k1 k2 ns1 ns2 h
    unfold cacheGet
    rw [h]

/-- A concrete cache state holding one entry under the literal key `":a"`. -/
def cexCacheC10 : CacheState ℕ :=
  { ttl := 100, maxSize := 10,
    memoryCache := [((":a"), { value := 5, expiry := 1000, nspace := none })],
    disk := [], hits := 0, misses := 0, sets := 0, evictions := 0, totalSaved := 0 }

/-- Claim C10 as stated is false at the explicit input `k = "a"`, `ns = ""`:
`get("a", namespace="")` addresses plain `"a"` (a miss here), while
`get(":a")` with no namespace addresses `":a"` (a hit returning 5), because
`if namespace` treats the empty string as absent. -/
theorem C10_counterexample :
    ¬ (cacheGet cexCacheC10 ("a") (some ("")) 0
        = cacheGet cexCacheC10 (("" : String) ++ ":" ++ ("a")) none 0) := by
  decide

theorem C10_namespaced_addressing_witness :
    (("b" : String) ≠ "") ∧
    ((cacheGet cexCacheC10 ("a") (some ("b")) 0
        = cacheGet cexCacheC10 (("b" : String) ++ ":" ++ ("a")) none 0) ∧
     (cacheInvalidate cexCacheC10 ("a") (some ("b"))
        = cacheInvalidate cexCacheC10 (("b" : String) ++ ":" ++ ("a")) none) ∧
     ((cacheSet cexCacheC10 ("a") 9 (some ("b")) false true 0).1
        = (cacheSet cexCacheC10 (("b" : String) ++ ":" ++ ("a")) 9 none false true 0).1) ∧
     CacheObsEq (cacheSet cexCacheC10 ("a") 9 (some ("b")) false true 0).2
        (cacheSet cexCacheC10 (("b" : String) ++ ":" ++ ("a")) 9 none false true 0).2 ∧
     (∀ k1 k2 (ns1 ns2 : Option String), fullKey k1 ns1 = fullKey k2 ns2 →
        cacheGet cexCacheC10 k1 ns1 0 = cacheGet cexCacheC10 k2 ns2 0)) :=
  ⟨by decide,
    C10_namespaced_addressing cexCacheC10 ("a") ("b") 9 false true 0 (by decide)⟩

/-! ## Rate limiter (`src/code_maria/rate_limiter.py`)

The sliding-window admission controller.  `RateLimiter.__init__` in the source
(lines 84-97) only creates `requests_per_minute`, `interval`, `last_request`, a
lock, a plain queue and a worker thread; the attributes read by the
sliding-window methods (`limits`, `requests`, `api_locks`, `stats`,
`api_metrics`, `config_file`, `request_queue`) are never created by it, which
claim C9 is about.  The other claims quantify over states of those attributes,
modelled by `RLState`; locks serialize access and have no data content. -/

/-- An entry of `self.limits` (the `APILimit` TypedDict, lines 53-56). -/
structure APILimit where
  calls : ℤ
  period : ℤ
  deriving DecidableEq, Repr

/-- The `self.api_metrics[name]["requests"]` dict (`APIMetrics`, lines 58-66).
`avg_response_time` is a float average; it is modelled as a rational. -/
structure Metrics where
  count : ℕ
  windowStart : ℤ
  avgResponseTime : ℚ
  errorCount : ℕ
  successCount : ℕ
  lastError : Option String
  lastSuccessTime : Option ℤ

/-- A `self.stats["api_health"][name]` dict as the various updates leave it;
fields other than `status` may be absent before the first update. -/
structure HealthRec where
  status : String
  lastCheck : Option ℤ
  usageFrac : Option ℚ
  reason : Option String
  errorRate : Option ℚ
  avgResponseTime : Option ℚ

/-- A `self.stats["api_health"][name]` value: either a health dict, or the bare
string `"degraded"` that `check_limit` line 225 assigns in place of the dict. -/
inductive Health where
  | degraded
  | st (h : HealthRec)

/-- A `QueuedRequest` (lines 68-77); the callback is opaque, only its presence
is tracked. -/
structure QueuedReq where
  apiName : String
  timestamp : ℤ
  priority : ℤ
  hasCallback : Bool
  timeout : Option ℚ

/-- The mutable attributes the sliding-window methods operate on.  `requests`
and `current_counts` behave as defaultdicts (`reset`, line 364, installs
`defaultdict(list)`; `add_request` line 264 `+= 1`-s unseen keys), modelled by
lookups with a default.  `api_metrics` and `api_health` are plain dicts. -/
structure RLState where
  limits : List (String × APILimit)
  requests : List (String × List ℤ)
  currentCounts : List (String × ℕ)
  totalRequests : ℕ
  throttledRequests : ℕ
  successfulRequests : ℕ
  queuedRequests : ℕ
  lastThrottle : Option ℤ
  throttleFrac : ℚ
  apiMetrics : List (String × Metrics)
  apiHealth : List (String × Health)
  requestQueue : List QueuedReq
  maxQueueSize : ℕ
  configFile : Option String

/-- The Python exceptions that the embedded methods can raise or swallow. -/
inductive RLError where
  | validationError
  | configurationError
  | keyError
  | attributeError
  | nameError
  | zeroDivisionError
  | queueFullError
  deriving DecidableEq, Repr

/-- The fresh metrics dict installed by `_update_counts` / `acquire` /
`_update_metrics` / `_validate_and_update_limits` when a key is absent. -/
def initMetrics (now : ℤ) : Metrics :=
  { count := 0, windowStart := now, avgResponseTime := 0, errorCount := 0,
    successCount := 0, lastError := none, lastSuccessTime := none }

/-- `RateLimiter._get_limit` (lines 370-373) merged with the `except KeyError`
handler of `check_limit` (lines 188-192): `self.limits.get(api_name,
self.limits["default"])` evaluates its default argument eagerly, so the
KeyError fires exactly when `"default"` is absent from `limits` — regardless of
whether `api_name` itself is configured — and the handler then falls back to
`self.limits.get("default", {"calls": 30, "period": 60})`, i.e. the literal. -/
def getLimitFallback (limits : List (String × APILimit)) (apiName : String) :
    APILimit :=
  match alookup limits ("default") with
  | some d => (alookup limits apiName).getD d
  | none => { calls := 30, period := 60 }

/-- The denial branch of `check_limit` (lines 215-225): bump the throttle
counters (`or 1` makes a zero total divide by one) and overwrite the health
entry with the bare string `"degraded"` when the key exists. -/
def throttleUpdate (s : RLState) (apiName : String) (now : ℤ) : RLState :=
  let throttled := s.throttledRequests + 1
  let s1 := { s with throttledRequests := throttled, lastThrottle := some now,
                     throttleFrac := (throttled : ℚ) /
                       (if s.totalRequests = 0 then 1 else (s.totalRequests : ℚ)) }
  if (alookup s1.apiHealth apiName).isSome then
    { s1 with apiHealth := aset s1.apiHealth apiName Health.degraded }
  else s1

/-- `RateLimiter.check_limit` (lines 157-233): validate the (stripped) name,
fetch the limit with default fallback, prune the window when the key exists,
compare the pruned count against `calls`, and update throttle stats on denial.
The `isinstance` and limit-structure checks always pass in the typed model. -/
def checkLimit (s : RLState) (apiName0 : String) (now : ℤ) :
    Except RLError (Bool × RLState) :=
  let apiName := pyStrip apiName0
  if apiName = ("") then Except.error RLError.validationError
  else if !(validName apiName) then Except.error RLError.validationError
  else
    let lim := getLimitFallback s.limits apiName
    let cutoff := now - lim.period
    let s1 :=
      if (alookup s.requests apiName).isSome then
        { s with requests := (aset s.requests apiName
            ((lookupD s.requests apiName []).filter (fun ts => decide (cutoff < ts)))) }
      else s
    let currentCount := (lookupD s1.requests apiName []).length
    let withinLimit : Bool := decide ((currentCount : ℤ) < lim.calls)
    let s2 := if withinLimit then s1 else throttleUpdate s1 apiName now
    Except.ok (withinLimit, s2)

/-- The fallback of `add_request` / `get_wait_time` / `acquire` (lines 251-252,
323-324, 485-487): unknown names are redirected to `"default"`. -/
def redirectName (limits : List (String × APILimit)) (apiName : String) : String :=
  if (alookup limits apiName).isSome then apiName else ("default")

/-- The statistics tail of `add_request` (lines 263-305), run after the
timestamp append; an error return models an exception raised at that point,
with all mutations made so far kept (Python mutates in place).  Missing
`api_metrics` / `limits` / `api_health` keys raise KeyError; a zero limit
raises ZeroDivisionError; a health entry degraded to a bare string makes
`health_status.update` raise AttributeError. -/
def addRequestStats (s : RLState) (apiName : String) (now : ℤ) :
    RLState × Option RLError :=
  let s := { s with totalRequests := s.totalRequests + 1,
                    currentCounts := (aset s.currentCounts apiName
                      (lookupD s.currentCounts apiName 0 + 1)) }
  match alookup s.apiMetrics apiName with
  | none => (s, some RLError.keyError)
  | some m =>
      let m1 := { m with count := m.count + 1, lastSuccessTime := some now }
      let s := { s with apiMetrics := aset s.apiMetrics apiName m1 }
      match alookup s.limits apiName with
      | none => (s, some RLError.keyError)
      | some lim =>
          if lim.calls = 0 then (s, some RLError.zeroDivisionError)
          else
            let currentCount := (lookupD s.requests apiName []).length
            let usageFrac : ℚ := (currentCount : ℚ) / (lim.calls : ℚ)
            match alookup s.apiHealth apiName with
            | none => (s, some RLError.keyError)
            | some Health.degraded => (s, some RLError.attributeError)
            | some (Health.st h) =>
                let h1 :=
                  if usageFrac ≥ (9 : ℚ)/10 then
                    { h with status := ("warning"), lastCheck := some now,
                             usageFrac := some usageFrac,
                             reason := some ("Alto uso da API") }
                  else if usageFrac ≥ (7 : ℚ)/10 then
                    { h with status := ("notice"), lastCheck := some now,
                             usageFrac := some usageFrac,
                             reason := some ("Uso moderado da API") }
                  else
                    { h with status := ("healthy"), lastCheck := some now,
                             usageFrac := some usageFrac }
                ({ s with apiHealth := aset s.apiHealth apiName (Health.st h1) },
                  none)

/-- `RateLimiter.add_request` (lines 235-309): validate (only emptiness —
there is no regex here and the name is used UNSTRIPPED), redirect unknown
names to `"default"`, append the timestamp, then update the statistics;
exceptions from the statistics tail propagate (line 309) but the append
already happened. -/
def addRequest (s : RLState) (apiName0 : String) (now : ℤ) :
    RLState × Option RLError :=
  if pyStrip apiName0 = ("") then (s, some RLError.validationError)
  else
    let apiName := redirectName s.limits apiName0
    let s1 := { s with requests := (aset s.requests apiName
                  (lookupD s.requests apiName [] ++ [now])) }
    addRequestStats s1 apiName now

/-- A minimum of a list of timestamps, as Python `min(list)`: `none` models the
ValueError raised on an empty list. -/
def pyMinGo (b : ℤ) : List ℤ → ℤ
  | [] => b
  | x :: xs => pyMinGo (min b x) xs

def pyMin : List ℤ → Option ℤ
  | [] => none
  | x :: xs => some (pyMinGo x xs)

/-- `RateLimiter.get_wait_time` (lines 311-348): redirect unknown names to
`"default"`; `self.requests[api_name]` (a defaultdict access, line 327)
creates an empty window for an unseen key; an empty window returns `None`;
`self.limits[api_name]` raises KeyError when even `"default"` is unconfigured
(caught, returning `None`, before the prune is assigned); otherwise prune with
the inclusive cutoff `current_time - ts <= period`, return `None` when under
limit, else `max(0, oldest + period - now)` (`min` of an empty list would raise
ValueError, caught, returning `None` with the prune kept). -/
def getWaitTime (s : RLState) (apiName0 : String) (now : ℤ) :
    Option ℤ × RLState :=
  let apiName := redirectName s.limits apiName0
  let s0 :=
    if (alookup s.requests apiName).isSome then s
    else { s with requests := aset s.requests apiName [] }
  if lookupD s0.requests apiName [] = [] then (none, s0)
  else
    match alookup s0.limits apiName with
    | none => (none, s0)
    | some lim =>
        let pruned := (lookupD s0.requests apiName []).filter
          (fun ts => decide (now - ts ≤ lim.period))
        let s1 := { s0 with requests := aset s0.requests apiName pruned }
        if (pruned.length : ℤ) < lim.calls then (none, s1)
        else
          match pyMin pruned with
          | none => (none, s1)
          | some oldest => (some (max 0 (oldest + lim.period - now)), s1)

/-- `RateLimiter._update_metrics` (lines 764-808): install a fresh metrics dict
if absent, update the average response time as a CUMULATIVE arithmetic mean
over `error_count + success_count` previous samples (not an EWMA), then bump
the matching counter; finally mirror `count` into `current_counts`.  The
`error_rate` local on line 807 is computed and discarded. -/
def updateMetrics (s : RLState) (apiName : String) (success : Bool)
    (responseTime : ℚ) (errorMsg : Option String) (now : ℤ) : RLState :=
  let m0 := (alookup s.apiMetrics apiName).getD (initMetrics now)
  let totalPrev : ℕ := m0.errorCount + m0.successCount
  let newAvg : ℚ :=
    if 0 < totalPrev then
      (m0.avgResponseTime * (totalPrev : ℚ) + responseTime) / ((totalPrev : ℚ) + 1)
    else responseTime
  let m1 := { m0 with avgResponseTime := newAvg }
  let m2 :=
    if success then
      { m1 with successCount := m1.successCount + 1, lastSuccessTime := some now }
    else
      { m1 with errorCount := m1.errorCount + 1, lastError := errorMsg }
  { s with apiMetrics := aset s.apiMetrics apiName m2,
           currentCounts := aset s.currentCounts apiName m2.count }

/-- `RateLimiter._update_success_metrics` (lines 572-596): bump the success
counter, then update the average by the 0.9/0.1 EWMA — except that a stored
average EQUAL TO ZERO (not only a first sample) resets it to the sample — and
refresh the health entry (KeyError when absent, AttributeError when it has been
degraded to a bare string; mutations made before the raise are kept). -/
def updateSuccessMetrics (s : RLState) (apiName : String) (processTime : ℚ)
    (now : ℤ) : RLState × Option RLError :=
  match alookup s.apiMetrics apiName with
  | none => (s, some RLError.keyError)
  | some m0 =>
      let m1 := { m0 with successCount := m0.successCount + 1,
                          lastSuccessTime := some now }
      let newAvg : ℚ :=
        if m1.avgResponseTime = (0 : ℚ) then processTime
        else (9 : ℚ)/10 * m1.avgResponseTime + (1 : ℚ)/10 * processTime
      let m2 := { m1 with avgResponseTime := newAvg }
      let s1 := { s with apiMetrics := aset s.apiMetrics apiName m2,
                         successfulRequests := s.successfulRequests + 1 }
      match alookup s1.apiHealth apiName with
      | none => (s1, some RLError.keyError)
      | some Health.degraded => (s1, some RLError.attributeError)
      | some (Health.st h) =>
          ({ s1 with apiHealth := (aset s1.apiHealth apiName (Health.st
              { h with status := ("healthy"), lastCheck := some now,
                       avgResponseTime := some newAvg })) }, none)

/-- `RateLimiter.update_limits` (lines 667-724): after the name validation it
calls `self._validate_and_set_limit(api_name, {...})` (line 686) — a method
that does NOT EXIST anywhere in the class or repository (only
`_validate_and_update_limits`, line 912, with a different name and signature,
exists).  The resulting AttributeError is not a ValidationError, so the
generic `except Exception` handler (line 722) logs it and returns `False`:
nothing is validated, updated, pruned or persisted. -/
def updateLimits (s : RLState) (apiName : String) (calls period : ℤ) :
    Except RLError (Bool × RLState) :=
  if pyStrip apiName = ("") then Except.error RLError.validationError
  else Except.ok (false, s)

/-- State that `RateLimiter.__init__` (lines 84-97) actually creates: the
sliding-window attributes (`limits`, `api_locks`, `requests`, `stats`,
`api_metrics`, ...) are NOT among them.  The lock, queue and worker thread are
concurrency furniture with no data content. -/
structure FreshState where
  requestsPerMinute : ℤ
  interval : ℚ
  lastRequest : ℤ

def rateLimiterInit (requestsPerMinute : ℤ) : FreshState :=
  { requestsPerMinute := requestsPerMinute,
    interval := 60 / (requestsPerMinute : ℚ),
    lastRequest := 0 }

/-- `check_limit` invoked on a freshly constructed `RateLimiter` (claim C9):
the validation lines (172-185) run normally, but `self._get_limit` (line 189)
touches `self.api_locks` (line 372), which `__init__` never created, raising
AttributeError — not KeyError, so the `except KeyError` handler (line 190)
does not fire; AttributeError is also neither ValidationError nor
ConfigurationError (line 229), so the generic handler (lines 231-233) returns
`False`. -/
def checkLimitFresh (f : FreshState) (apiName0 : String) (now : ℤ) :
    Except RLError Bool :=
  let apiName := pyStrip apiName0
  if apiName = ("") then Except.error RLError.validationError
  else if !(validName apiName) then Except.error RLError.validationError
  else Except.ok false

/-- The body of `acquire` after the parameter validation (lines 484-549):
redirect, read the health entry (line 491: KeyError on a missing key, and
`health.get` on a bare `"degraded"` string raises AttributeError — both
swallowed by the generic handler into `return False`), then try to enqueue.
A full queue ends in the `except queue.Full:` clause whose evaluation raises
NameError (no `import queue` in the module), swallowed into `return False`
with no mutation; otherwise enqueue and update the statistics
(lines 521-543), installing a fresh metrics dict when absent. -/
def acquireBody (s : RLState) (apiName1 : String) (hasCallback : Bool)
    (timeout : Option ℚ) (now : ℤ) : Except RLError (Bool × RLState) :=
  let apiName := redirectName s.limits apiName1
  match alookup s.apiHealth apiName with
  | none => Except.ok (false, s)
  | some Health.degraded => Except.ok (false, s)
  | some (Health.st _) =>
      if s.requestQueue.length ≥ s.maxQueueSize then
        Except.ok (false, s)
      else
        let req : QueuedReq := { apiName := apiName, timestamp := now,
                                 priority := now, hasCallback := hasCallback,
                                 timeout := timeout }
        let s1 := { s with requestQueue := s.requestQueue ++ [req],
                           queuedRequests := s.queuedRequests + 1,
                           currentCounts := (aset s.currentCounts apiName
                             (lookupD s.currentCounts apiName 0 + 1)) }
        let m0 := (alookup s1.apiMetrics apiName).getD (initMetrics now)
        let s2 := { s1 with apiMetrics := (aset s1.apiMetrics apiName
                      { m0 with count := m0.count + 1 }) }
        Except.ok (true, s2)

/-- `RateLimiter.acquire` (lines 439-555): validate name/callback/timeout, warn
when the redirected service is unhealthy (reading the health dict: KeyError on
a missing key and AttributeError on a degraded bare string are swallowed by the
generic handler, returning `False`), then `self.request_queue.put(request,
timeout=0.1)`.  When the bounded queue is full, `put` raises `queue.Full` — but
the module only ever does `from queue import ...`, never `import queue`, so
evaluating the handler clause `except queue.Full:` (line 510) raises NameError,
which the generic `except Exception` (line 553) converts to `return False`:
`QueueFullError` (line 519) is unreachable, and the full-queue state is left
unmutated.  On success the request is enqueued and statistics updated. -/
def acquire (s : RLState) (apiName0 : String) (hasCallback : Bool)
    (timeout : Option ℚ) (now : ℤ) : Except RLError (Bool × RLState) :=
  let apiName1 := pyStrip apiName0
  if apiName1 = ("") then Except.error RLError.validationError
  else if !(validName apiName1) then Except.error RLError.validationError
  else
    match timeout with
    | some tv =>
        if tv ≤ 0 then Except.error RLError.validationError
        else acquireBody s apiName1 hasCallback (some tv) now
    | none => acquireBody s apiName1 hasCallback none now

/-- One admission attempt of the protocol the spec describes (claim C1):
`check_limit`, and on `True` immediately `add_request`, at one instant of the
injectable clock.  A validation error means no admission; exceptions escaping
`add_request` (line 309) leave its in-place mutations, including the appended
timestamp, in the state. -/
def admitStep (s : RLState) (apiName : String) (now : ℤ) : RLState :=
  match checkLimit s apiName now with
  | Except.error _ => s
  | Except.ok (within, s1) =>
      if within then (addRequest s1 apiName now).1 else s1

/-- Run a sequence of admission attempts `(time, service)`. -/
def runTrace (s : RLState) (tr : List (ℤ × String)) : RLState :=
  tr.foldl (fun st e => admitStep st e.2 e.1) s

/-- The log of successful admissions of a trace: for every attempt whose
`check_limit` returned `True`, the pair (window key actually appended to by
`add_request`, i.e. the redirected name, timestamp). -/
def admitLog (s : RLState) : List (ℤ × String) → List (String × ℤ)
  | [] => []
  | e :: tr =>
      match checkLimit s e.2 e.1 with
      | Except.error _ => admitLog s tr
      | Except.ok (within, s1) =>
          if within then
            (redirectName s1.limits e.2, e.1) :: admitLog (addRequest s1 e.2 e.1).1 tr
          else admitLog s1 tr

/-- Number of timestamps of `l` inside the trailing window `(t - period, t]`
(no upper cutoff needed for stored windows, whose entries never exceed the
clock). -/
def windowCount (l : List ℤ) (t period : ℤ) : ℕ :=
  (l.filter (fun ts => decide (t - period < ts))).length

/-- Number of logged admissions of service `n` inside the trailing window
`(t - period, t]`. -/
def logWindowCount (log : List (String × ℤ)) (n : String) (t period : ℤ) : ℕ :=
  (log.filter (fun e => e.1 = n ∧ t - period < e.2 ∧ e.2 ≤ t)).length

/-- Modelled from the spec: the constructor the test-suite exercises
(`RateLimiter(config_file)`) is not present in `src/` — the `__init__` there
(lines 84-97) creates none of the sliding-window attributes.  Per the spec,
§3, WindowState timestamp lists start empty and a ServiceMetrics /
HealthStatus record exists per configured service with zeroed counters and
`healthy` status; global counters start at zero. -/
def initState (limits : List (String × APILimit)) (maxQueue : ℕ) (now : ℤ) :
    RLState :=
  { limits := limits
    requests := []
    currentCounts := []
    totalRequests := 0
    throttledRequests := 0
    successfulRequests := 0
    queuedRequests := 0
    lastThrottle := none
    throttleFrac := 0
    apiMetrics := limits.map (fun p => (p.1, initMetrics now))
    apiHealth := limits.map (fun p => (p.1, Health.st
      { status := ("healthy"), lastCheck := none, usageFrac := none,
        reason := none, errorRate := none, avgResponseTime := none }))
    requestQueue := []
    maxQueueSize := maxQueue
    configFile := none }

/-- Claim C9: on a freshly constructed `RateLimiter`, `check_limit` with any
syntactically valid service name raises nothing and returns `False`: the
constructor (lines 84-97) never creates the `limits`/`api_locks`/`requests`/
`stats` attributes the sliding-window path reads, `self.api_locks` inside
`_get_limit` (line 372) raises AttributeError, which is not caught by the
`except KeyError` (line 190) nor re-raised by line 229, and the generic
handler (lines 231-233) turns it into `False`. -/
theorem C9_fresh_checkLimit_false (requestsPerMinute : ℤ) (apiName : String)
    (now : ℤ) (h : validName (pyStrip apiName) = true) :
    checkLimitFresh (rateLimiterInit requestsPerMinute) apiName now
      = Except.ok false := by
  unfold checkLimitFresh
  rw [if_neg (validName_ne_empty h), if_neg (by simp [h])]

theorem C9_fresh_checkLimit_false_witness :
    validName (pyStrip ("test_api")) = true ∧
    checkLimitFresh (rateLimiterInit 60) ("test_api") 0 = Except.ok false :=
  ⟨by decide, C9_fresh_checkLimit_false 60 ("test_api") 0 (by decide)⟩

/-- Claim C6 (code bug): `update_limits` with a non-blank name NEVER validates
the limit values, never updates `self.limits`, never prunes, never persists
and never returns `True`: line 686 calls `self._validate_and_set_limit`, a
method that does not exist anywhere in the repository, and the resulting
AttributeError is converted by the generic handler (lines 722-724) into
`return False` with the state untouched. -/
theorem C6_updateLimits_always_false (s : RLState) (apiName : String)
    (calls period : ℤ) (h : pyStrip apiName ≠ "") :
    updateLimits s apiName calls period = Except.ok (false, s) := by
  unfold updateLimits
  rw [if_neg h]

theorem C6_updateLimits_always_false_witness :
    (pyStrip ("new_api") ≠ "") ∧
    updateLimits (initState [(("default"), APILimit.mk 30 60)] 10 0) ("new_api") 20 30
      = Except.ok (false, initState [(("default"), APILimit.mk 30 60)] 10 0) :=
  ⟨by decide, C6_updateLimits_always_false _ ("new_api") 20 30 (by decide)⟩

/-- Claim C7 (code bug): with the bounded request queue full, `acquire` with a
valid service name returns `Ok False` with the state unchanged instead of
raising `QueueFullError`: `self.request_queue.put` raises `queue.Full`, but
the module never does `import queue` (only `from queue import ...`), so the
handler clause `except queue.Full:` (line 510) itself raises NameError before
reaching the `raise QueueFullError` on line 519, and the generic
`except Exception` (lines 553-555) returns `False`. -/
theorem C7_full_queue_no_queueFullError (s : RLState) (apiName : String)
    (hasCallback : Bool) (now : ℤ) (h : validName (pyStrip apiName) = true)
    (hh : ∃ hr, alookup s.apiHealth (redirectName s.limits (pyStrip apiName))
            = some (Health.st hr))
    (hfull : s.requestQueue.length ≥ s.maxQueueSize) :
    acquire s apiName hasCallback none now = Except.ok (false, s) := by
  obtain ⟨hr, hhr⟩ := hh
  unfold acquire
  rw [if_neg (validName_ne_empty h), if_neg (by simp [h])]
  show acquireBody s (pyStrip apiName) hasCallback none now = Except.ok (false, s)
  simp only [acquireBody]
  rw [hhr]
  simp [hfull]

theorem C7_full_queue_no_queueFullError_witness :
    validName (pyStrip ("test_api")) = true ∧
    (∃ hr, alookup (initState [(("default"), APILimit.mk 30 60)] 0 0).apiHealth
        (redirectName (initState [(("default"), APILimit.mk 30 60)] 0 0).limits
          (pyStrip ("test_api")))
      = some (Health.st hr)) ∧
    (initState [(("default"), APILimit.mk 30 60)] 0 0).requestQueue.length
      ≥ (initState [(("default"), APILimit.mk 30 60)] 0 0).maxQueueSize ∧
    acquire (initState [(("default"), APILimit.mk 30 60)] 0 0) ("test_api") false none 0
      = Except.ok (false, initState [(("default"), APILimit.mk 30 60)] 0 0) :=
  ⟨by decide,
    ⟨{ status := ("healthy"), lastCheck := none, usageFrac := none,
       reason := none, errorRate := none, avgResponseTime := none }, rfl⟩,
    by decide,
    C7_full_queue_no_queueFullError _ ("test_api") false 0 (by decide)
      ⟨{ status := ("healthy"), lastCheck := none, usageFrac := none,
         reason := none, errorRate := none, avgResponseTime := none }, rfl⟩
      (by decide)⟩

/-- Claim C5 (amended): `_update_metrics` increments exactly the matching
success/error counter and updates the stored average response time to the
sample on the first sample and to the CUMULATIVE arithmetic mean
`(old_avg * n + s) / (n + 1)` (with `n = error_count + success_count` before
the update) on later samples — not the 0.9/0.1 EWMA the claim states.  The
EWMA `0.9*old + 0.1*s` is what `_update_success_metrics` applies, gated on the
stored average being nonzero rather than on being past the first sample. -/
theorem C5_avg_update_formulas (s : RLState) (n : String) (success : Bool)
    (rt : ℚ) (errorMsg : Option String) (now : ℤ) (m0 : Metrics)
    (hm : alookup s.apiMetrics n = some m0) :
    (∃ m1, alookup (updateMetrics s n success rt errorMsg now).apiMetrics n = some m1 ∧
       m1.avgResponseTime =
         (if 0 < m0.errorCount + m0.successCount then
            (m0.avgResponseTime * ((m0.errorCount + m0.successCount : ℕ) : ℚ) + rt)
              / (((m0.errorCount + m0.successCount : ℕ) : ℚ) + 1)
          else rt) ∧
       m1.successCount = (if success then m0.successCount + 1 else m0.successCount) ∧
       m1.errorCount = (if success then m0.errorCount else m0.errorCount + 1)) ∧
    (∃ m2, alookup (updateSuccessMetrics s n rt now).1.apiMetrics n = some m2 ∧
       m2.avgResponseTime =
         (if m0.avgResponseTime = (0 : ℚ) then rt
          else (9 : ℚ)/10 * m0.avgResponseTime + (1 : ℚ)/10 * rt) ∧
       m2.successCount = m0.successCount + 1) := by
  constructor
  · simp only [updateMetrics, hm, Option.getD_some]
    refine ⟨_, alookup_aset_self .., ?_, ?_, ?_⟩ <;> cases success <;> simp
  · simp only [updateSuccessMetrics, hm]
    cases halt : alookup s.apiHealth n with
    | none =>
        refine ⟨{ m0 with
            avgResponseTime := (if m0.avgResponseTime = (0 : ℚ) then rt
              else (9 : ℚ)/10 * m0.avgResponseTime + (1 : ℚ)/10 * rt),
            successCount := m0.successCount + 1,
            lastSuccessTime := some now }, ?_, rfl, rfl⟩
        exact alookup_aset_self ..
    | some h =>
        cases h with
        | degraded =>
            refine ⟨{ m0 with
                avgResponseTime := (if m0.avgResponseTime = (0 : ℚ) then rt
                  else (9 : ℚ)/10 * m0.avgResponseTime + (1 : ℚ)/10 * rt),
                successCount := m0.successCount + 1,
                lastSuccessTime := some now }, ?_, rfl, rfl⟩
            exact alookup_aset_self ..
        | st hr =>
            refine ⟨{ m0 with
                avgResponseTime := (if m0.avgResponseTime = (0 : ℚ) then rt
                  else (9 : ℚ)/10 * m0.avgResponseTime + (1 : ℚ)/10 * rt),
                successCount := m0.successCount + 1,
                lastSuccessTime := some now }, ?_, rfl, rfl⟩
            exact alookup_aset_self ..

/-- A limiter state with one completed sample recorded for service `"a"`:
`success_count = 1`, `avg_response_time = 1`. -/
def cexStateC5 : RLState :=
  { initState [(("a"), APILimit.mk 10 60)] 10 0 with
    apiMetrics := [(("a"), { count := 1, windowStart := 0, avgResponseTime := 1,
                             errorCount := 0, successCount := 1, lastError := none,
                             lastSuccessTime := some 0 })] }

/-- Claim C5 as stated is false at the explicit input: for service `"a"` with
one prior sample (`old_avg = 1`) a successful call with latency `2` makes
`_update_metrics` store the cumulative mean `(1*1 + 2)/2 = 3/2`, while the
claimed EWMA formula `0.9*1 + 0.1*2` yields `11/10 ≠ 3/2`. -/
theorem C5_counterexample :
    (Option.map Metrics.avgResponseTime
       (alookup (updateMetrics cexStateC5 ("a") true 2 none 5).apiMetrics ("a"))
       = some ((3 : ℚ)/2))
    ∧ (3 : ℚ)/2 ≠ (9 : ℚ)/10 * 1 + (1 : ℚ)/10 * 2 := by
  constructor
  · have hm : alookup cexStateC5.apiMetrics ("a")
        = some { count := 1, windowStart := 0, avgResponseTime := 1,
                 errorCount := 0, successCount := 1, lastError := none,
                 lastSuccessTime := some 0 } := rfl
    simp only [updateMetrics, hm, Option.getD_some, alookup_aset_self,
      Option.map_some]
    norm_num
  · norm_num

theorem C5_avg_update_formulas_witness :
    (alookup cexStateC5.apiMetrics ("a")
      = some { count := 1, windowStart := 0, avgResponseTime := 1,
               errorCount := 0, successCount := 1, lastError := none,
               lastSuccessTime := some 0 }) ∧
    ((∃ m1, alookup (updateMetrics cexStateC5 ("a") true 2 none 5).apiMetrics ("a")
          = some m1 ∧
        m1.avgResponseTime =
          (if 0 < (0 : ℕ) + 1 then ((1 : ℚ) * (((0 : ℕ) + 1 : ℕ) : ℚ) + 2)
              / ((((0 : ℕ) + 1 : ℕ) : ℚ) + 1)
           else 2) ∧
        m1.successCount = (if true then 1 + 1 else 1) ∧
        m1.errorCount = (if true then 0 else 0 + 1)) ∧
     (∃ m2, alookup (updateSuccessMetrics cexStateC5 ("a") 2 5).1.apiMetrics ("a")
          = some m2 ∧
        m2.avgResponseTime =
          (if (1 : ℚ) = (0 : ℚ) then 2 else (9 : ℚ)/10 * 1 + (1 : ℚ)/10 * 2) ∧
        m2.successCount = 1 + 1)) :=
  ⟨rfl, C5_avg_update_formulas cexStateC5 ("a") true 2 none 5 _ rfl⟩

theorem pyMinGo_le_init : ∀ (xs : List ℤ) (b : ℤ), pyMinGo b xs ≤ b
  | [], b => le_refl b
  | x :: xs, b => le_trans (pyMinGo_le_init xs (min b x)) (min_le_left b x)

theorem pyMinGo_le_mem : ∀ (xs : List ℤ) (b x : ℤ), x ∈ xs → pyMinGo b xs ≤ x
  | [], _, _, h => absurd h (List.not_mem_nil _)
  | y :: xs, b, x, h => by
      unfold pyMinGo
      rcases List.mem_cons.mp h with h | h
      · subst h
        exact le_trans (pyMinGo_le_init xs (min b x)) (min_le_right b x)
      · exact pyMinGo_le_mem xs (min b y) x h

theorem pyMinGo_mem_or : ∀ (xs : List ℤ) (b : ℤ), pyMinGo b xs = b ∨ pyMinGo b xs ∈ xs
  | [], _ => Or.inl rfl
  | x :: xs, b => by
      unfold pyMinGo
      rcases pyMinGo_mem_or xs (min b x) with h | h
      · rw [h]
        rcases le_total b x with hbx | hxb
        · exact Or.inl (min_eq_left hbx)
        · right
          rw [min_eq_right hxb]
          exact List.mem_cons_self _ _
      · exact Or.inr (List.mem_cons_of_mem _ h)

theorem pyMin_mem {l : List ℤ} {m : ℤ} (h : pyMin l = some m) : m ∈ l := by
  cases l with
  | nil => simp [pyMin] at h
  | cons x xs =>
      simp only [pyMin, Option.some.injEq] at h
      subst h
      rcases pyMinGo_mem_or xs x with h | h
      · rw [h]
        exact List.mem_cons_self _ _
      · exact List.mem_cons_of_mem _ h

theorem pyMin_le {l : List ℤ} {m : ℤ} (h : pyMin l = some m) : ∀ x ∈ l, m ≤ x := by
  cases l with
  | nil => simp [pyMin] at h
  | cons y xs =>
      simp only [pyMin, Option.some.injEq] at h
      subst h
      intro x hx
      rcases List.mem_cons.mp hx with hx | hx
      · subst hx
        exact pyMinGo_le_init xs x
      · exact pyMinGo_le_mem xs y x hx

theorem pyMin_isSome {l : List ℤ} (h : l ≠ []) : (pyMin l).isSome := by
  cases l with
  | nil => exact absurd rfl h
  | cons x xs => simp [pyMin]

theorem getLimitFallback_eq {limits : List (String × APILimit)} {n : String}
    {lim : APILimit} (hdef : (alookup limits ("default")).isSome)
    (hc : alookup limits n = some lim) : getLimitFallback limits n = lim := by
  obtain ⟨d, hd⟩ := Option.isSome_iff_exists.mp hdef
  unfold getLimitFallback
  rw [hd, hc]
  rfl

theorem except_map_fst_ok {e : Except RLError (Bool × RLState)} {b : Bool}
    (h : Except.map Prod.fst e = Except.ok b) : ∃ s2, e = Except.ok (b, s2) := by
  cases e with
  | error err => simp [Except.map] at h
  | ok p =>
      obtain ⟨pb, ps⟩ := p
      simp only [Except.map, Except.ok.injEq] at h
      exact ⟨ps, by rw [h]⟩

/-- How `check_limit` evaluates on a valid, configured service whose window
key exists, when `"default"` is configured: it prunes to the strict cutoff
`t - period` and admits iff the pruned count is under `calls`. -/
theorem checkLimit_fst (s : RLState) (n : String) (t : ℤ) (lim : APILimit)
    (R : List ℤ)
    (hv : validName n = true)
    (hdef : (alookup s.limits ("default")).isSome)
    (hc : alookup s.limits n = some lim)
    (hR : alookup s.requests n = some R) :
    Except.map Prod.fst (checkLimit s n t)
      = Except.ok
          (decide (((R.filter (fun ts => decide (t - lim.period < ts))).length : ℤ)
            < lim.calls)) := by
  have hstrip := pyStrip_eq_self_of_validName hv
  unfold checkLimit
  rw [hstrip]
  rw [if_neg (validName_ne_empty hv)]
  rw [if_neg (by simp [hv])]
  rw [getLimitFallback_eq hdef hc]
  simp only [lookupD, hR, Option.isSome_some, if_true, Option.getD_some,
    alookup_aset_self, Except.map]

/-- Claim C2 (amended): for a valid configured service (with `"default"`
configured, so `check_limit` sees the same limit), when the pruned window
count is under `max_calls`, `get_wait_time` returns `None`; when it is at or
above `max_calls` AND fewer than `max_calls` pruned timestamps are strictly
newer than the oldest one (true in particular whenever the count is exactly
`max_calls`), `get_wait_time` returns the non-negative duration
`oldest + period - now` until the oldest in-window timestamp leaves the
window, and advancing the clock by exactly that duration makes the next
`check_limit` succeed.  Without the freshness condition the last part fails
(see the counterexample: duplicated oldest timestamps all expire together,
yet more than `max_calls - 1` newer ones may remain). -/
theorem C2_wait_time_amended (s : RLState) (n : String) (now : ℤ)
    (lim : APILimit)
    (hv : validName n = true)
    (hc : alookup s.limits n = some lim)
    (hdef : (alookup s.limits ("default")).isSome)
    (hpos : 0 < lim.calls) :
    ((((lookupD s.requests n []).filter
        (fun ts => decide (now - ts ≤ lim.period))).length : ℤ) < lim.calls
      → (getWaitTime s n now).1 = none) ∧
    (∀ oldest,
      pyMin ((lookupD s.requests n []).filter
        (fun ts => decide (now - ts ≤ lim.period))) = some oldest →
      lim.calls ≤ (((lookupD s.requests n []).filter
        (fun ts => decide (now - ts ≤ lim.period))).length : ℤ) →
      (((((lookupD s.requests n []).filter
          (fun ts => decide (now - ts ≤ lim.period))).filter
          (fun ts => decide (oldest < ts))).length : ℤ) < lim.calls) →
      (getWaitTime s n now).1 = some (oldest + lim.period - now) ∧
      0 ≤ oldest + lim.period - now ∧
      ∃ s2, checkLimit (getWaitTime s n now).2 n
          (now + (oldest + lim.period - now)) = Except.ok (true, s2)) := by
  have hred : redirectName s.limits n = n := by
    unfold redirectName
    rw [hc]
    rfl
  constructor
  · intro hunder
    cases hkey : alookup s.requests n with
    | none =>
        simp only [getWaitTime, hred, hkey, lookupD, Option.isSome_none,
          Bool.false_eq_true, if_false, alookup_aset_self, Option.getD_some,
          if_true]
    | some R =>
        rw [lookupD, hkey, Option.getD_some] at hunder
        by_cases hRnil : R = []
        · subst hRnil
          simp only [getWaitTime, hred, hkey, lookupD, Option.isSome_some,
            if_true, Option.getD_some, List.filter_nil]
        · simp only [getWaitTime, hred, hkey, lookupD, Option.isSome_some,
            if_true, Option.getD_some, hc]
          rw [if_neg hRnil, if_pos hunder]
  · intro oldest hmin hover hfresh
    rw [lookupD] at hmin hover hfresh
    cases hkey : alookup s.requests n with
    | none =>
        rw [hkey, Option.getD_none, List.filter_nil] at hmin
        simp [pyMin] at hmin
    | some R =>
        rw [hkey, Option.getD_some] at hmin hover hfresh
        have hRnil : R ≠ [] := by
          intro hnil
          subst hnil
          rw [List.filter_nil] at hmin
          simp [pyMin] at hmin
        have hoin : oldest ∈ R.filter (fun ts => decide (now - ts ≤ lim.period)) :=
          pyMin_mem hmin
        have holim : now - oldest ≤ lim.period := by
          have := (List.mem_filter.mp hoin).2
          exact of_decide_eq_true this
        have hw0 : 0 ≤ oldest + lim.period - now := by omega
        have hnotlt : ¬ (((R.filter
            (fun ts => decide (now - ts ≤ lim.period))).length : ℤ) < lim.calls) :=
          not_lt.mpr hover
        have heval : getWaitTime s n now
            = (some (oldest + lim.period - now),
               { s with requests := (aset s.requests n
                   (R.filter (fun ts => decide (now - ts ≤ lim.period)))) }) := by
          simp only [getWaitTime, hred, hkey, lookupD, Option.isSome_some,
            if_true, Option.getD_some, hc]
          rw [if_neg hRnil, if_neg hnotlt, hmin]
          simp only [max_eq_right hw0]
        refine ⟨by rw [heval], hw0, ?_⟩
        rw [heval]
        have hR1 : alookup (aset s.requests n
            (R.filter (fun ts => decide (now - ts ≤ lim.period)))) n
            = some (R.filter (fun ts => decide (now - ts ≤ lim.period))) :=
          alookup_aset_self ..
        have hmap := checkLimit_fst
          { s with requests := (aset s.requests n
              (R.filter (fun ts => decide (now - ts ≤ lim.period)))) }
          n (now + (oldest + lim.period - now)) lim
          (R.filter (fun ts => decide (now - ts ≤ lim.period)))
          hv hdef hc hR1
        have ht : ∀ ts : ℤ,
            (now + (oldest + lim.period - now) - lim.period < ts) = (oldest < ts) := by
          intro ts
          have : now + (oldest + lim.period - now) - lim.period = oldest := by omega
          rw [this]
        simp only [ht] at hmap
        rw [decide_eq_true hfresh] at hmap
        exact except_map_fst_ok hmap

/-- Service `"a"` limited to 1 call / 60 s whose window holds `[0, 0, 10]`
(reachable by admitting under a larger limit and then lowering it). -/
def cexStateC2 : RLState :=
  { initState [(("a"), APILimit.mk 1 60), (("default"), APILimit.mk 30 60)] 10 0 with
    requests := [(("a"), [0, 0, 10])] }

/-- Claim C2 as stated is false at the explicit input `cexStateC2`, `now = 20`:
the pruned window `[0, 0, 10]` has 3 ≥ 1 = `max_calls` entries, and
`get_wait_time` duly returns `40 = oldest + period - now`; but after advancing
the clock by exactly 40 (to 60) the next `check_limit` still fails — both
copies of the oldest timestamp 0 leave the window together, leaving `[10]`,
and `1 < 1` is false.  -/
theorem C2_counterexample :
    (((lookupD cexStateC2.requests ("a") []).filter
        (fun ts => decide ((20 : ℤ) - ts ≤ 60))).length = 3) ∧
    ((getWaitTime cexStateC2 ("a") 20).1 = some 40) ∧
    (Except.map Prod.fst
        (checkLimit (getWaitTime cexStateC2 ("a") 20).2 ("a") (20 + 40))
      = Except.ok false) := by
  refine ⟨rfl, rfl, rfl⟩

/-- Service `"a"` limited to 1 call / 60 s whose window holds a single
timestamp `[0]`. -/
def witStateC2 : RLState :=
  { initState [(("a"), APILimit.mk 1 60), (("default"), APILimit.mk 30 60)] 10 0 with
    requests := [(("a"), [0])] }

theorem C2_wait_time_amended_witness :
    validName ("a") = true ∧
    alookup witStateC2.limits ("a") = some (APILimit.mk 1 60) ∧
    (alookup witStateC2.limits ("default")).isSome = true ∧
    (0 : ℤ) < 1 ∧
    (((((lookupD witStateC2.requests ("a") []).filter
        (fun ts => decide ((20 : ℤ) - ts ≤ 60))).length : ℤ) < 1
      → (getWaitTime witStateC2 ("a") 20).1 = none) ∧
    (∀ oldest,
      pyMin ((lookupD witStateC2.requests ("a") []).filter
        (fun ts => decide ((20 : ℤ) - ts ≤ 60))) = some oldest →
      (1 : ℤ) ≤ (((lookupD witStateC2.requests ("a") []).filter
        (fun ts => decide ((20 : ℤ) - ts ≤ 60))).length : ℤ) →
      (((((lookupD witStateC2.requests ("a") []).filter
          (fun ts => decide ((20 : ℤ) - ts ≤ 60))).filter
          (fun ts => decide (oldest < ts))).length : ℤ) < 1) →
      (getWaitTime witStateC2 ("a") 20).1 = some (oldest + 60 - 20) ∧
      (0 : ℤ) ≤ oldest + 60 - 20 ∧
      ∃ s2, checkLimit (getWaitTime witStateC2 ("a") 20).2 ("a")
          (20 + (oldest + 60 - 20)) = Except.ok (true, s2))) :=
  ⟨by decide, rfl, rfl, by decide,
    C2_wait_time_amended witStateC2 ("a") 20 (APILimit.mk 1 60)
      (by decide) rfl rfl (by decide)⟩

theorem lookupD_aset_self {α : Type} (l : List (String × α)) (k : String)
    (v d : α) : lookupD (aset l k v) k d = v := by
  rw [lookupD, alookup_aset_self]
  rfl

theorem lookupD_aset_ne {α : Type} (l : List (String × α)) (k k' : String)
    (v d : α) (h : k ≠ k') : lookupD (aset l k v) k' d = lookupD l k' d := by
  rw [lookupD, alookup_aset_ne _ _ _ _ h]
  rfl

theorem windowCount_mono (l : List ℤ) {t t' : ℤ} (p : ℤ) (h : t ≤ t') :
    windowCount l t' p ≤ windowCount l t p := by
  unfold windowCount
  apply length_filter_mono
  intro a _ ha
  have := of_decide_eq_true ha
  exact decide_eq_true (by omega)

theorem windowCount_le_length (l : List ℤ) (t p : ℤ) :
    windowCount l t p ≤ l.length := by
  unfold windowCount
  exact List.Sublist.length_le (List.filter_sublist l)

theorem windowCount_prune (l : List ℤ) {t1 t : ℤ} (p : ℤ) (h : t1 ≤ t) :
    windowCount (l.filter (fun ts => decide (t1 - p < ts))) t p
      = windowCount l t p := by
  unfold windowCount
  rw [filter_filter_of_imp l ?_]
  intro a _ ha
  have := of_decide_eq_true ha
  exact decide_eq_true (by omega)

theorem windowCount_append_one (l : List ℤ) (x t p : ℤ) :
    windowCount (l ++ [x]) t p
      = windowCount l t p + (if t - p < x then 1 else 0) := by
  unfold windowCount
  rw [List.filter_append, List.length_append]
  by_cases hx : t - p < x
  · simp [hx]
  · simp [hx]

/-- Parts (A) and (B) of the sliding-window invariant: all stored timestamps
of every configured service are bounded by the clock, and (for non-negative
limits) the count inside the current trailing window is at most `calls`. -/
def WInv (lims : List (String × APILimit)) (s : RLState) (now : ℤ) : Prop :=
  ∀ n lim, alookup lims n = some lim →
    (∀ ts ∈ lookupD s.requests n [], ts ≤ now) ∧
    (0 ≤ lim.calls →
      ((windowCount (lookupD s.requests n []) now lim.period : ℤ) ≤ lim.calls))

theorem WInv_mono {lims : List (String × APILimit)} {s : RLState} {now t : ℤ}
    (hinv : WInv lims s now) (h : now ≤ t) : WInv lims s t := by
  intro n lim hc
  obtain ⟨hA, hB⟩ := hinv n lim hc
  refine ⟨fun ts hts => le_trans (hA ts hts) h, fun hcalls => ?_⟩
  calc ((windowCount (lookupD s.requests n []) t lim.period : ℤ))
      ≤ (windowCount (lookupD s.requests n []) now lim.period : ℤ) := by
        exact_mod_cast windowCount_mono _ lim.period h
    _ ≤ lim.calls := hB hcalls

theorem throttleUpdate_requests (s : RLState) (n : String) (t : ℤ) :
    (throttleUpdate s n t).requests = s.requests := by
  unfold throttleUpdate
  by_cases h : (alookup s.apiHealth n).isSome <;> simp [h]

theorem throttleUpdate_limits (s : RLState) (n : String) (t : ℤ) :
    (throttleUpdate s n t).limits = s.limits := by
  unfold throttleUpdate
  by_cases h : (alookup s.apiHealth n).isSome <;> simp [h]

theorem addRequestStats_fst_requests (s : RLState) (n : String) (t : ℤ) :
    (addRequestStats s n t).1.requests = s.requests := by
  simp only [addRequestStats]
  repeat' split
  all_goals rfl

theorem addRequestStats_fst_limits (s : RLState) (n : String) (t : ℤ) :
    (addRequestStats s n t).1.limits = s.limits := by
  simp only [addRequestStats]
  repeat' split
  all_goals rfl

theorem addRequest_fst_requests (s : RLState) (n : String) (t : ℤ)
    (hv : validName n = true) (hconf : (alookup s.limits n).isSome) :
    (addRequest s n t).1.requests
      = aset s.requests n (lookupD s.requests n [] ++ [t]) ∧
    (addRequest s n t).1.limits = s.limits := by
  have hstrip := pyStrip_eq_self_of_validName hv
  have hne := validName_ne_empty hv
  have hred : redirectName s.limits n = n := by
    unfold redirectName
    rw [if_pos hconf]
  unfold addRequest
  rw [hstrip, if_neg hne, hred]
  constructor
  · rw [addRequestStats_fst_requests]
  · rw [addRequestStats_fst_limits]

theorem postCheck_requests (w : Bool) (s1 : RLState) (n : String) (t : ℤ) :
    (if w then s1 else throttleUpdate s1 n t).requests = s1.requests := by
  cases w
  · simp [throttleUpdate_requests]
  · simp

theorem postCheck_limits (w : Bool) (s1 : RLState) (n : String) (t : ℤ) :
    (if w then s1 else throttleUpdate s1 n t).limits = s1.limits := by
  cases w
  · simp [throttleUpdate_limits]
  · simp

theorem checkLimit_fst_gen (s : RLState) (n : String) (t : ℤ) (lim : APILimit)
    (hv : validName n = true)
    (hdef : (alookup s.limits ("default")).isSome)
    (hc : alookup s.limits n = some lim) :
    Except.map Prod.fst (checkLimit s n t)
      = Except.ok (decide ((((lookupD s.requests n []).filter
          (fun ts => decide (t - lim.period < ts))).length : ℤ) < lim.calls)) := by
  cases hkey : alookup s.requests n with
  | some R =>
      rw [lookupD, hkey, Option.getD_some]
      exact checkLimit_fst s n t lim R hv hdef hc hkey
  | none =>
      have hstrip := pyStrip_eq_self_of_validName hv
      unfold checkLimit
      rw [hstrip, if_neg (validName_ne_empty hv), if_neg (by simp [hv]),
        getLimitFallback_eq hdef hc]
      simp only [lookupD, hkey, Option.isSome_none, Bool.false_eq_true, if_false,
        Option.getD_none, List.filter_nil, Except.map]

theorem checkLimit_ok_state (s : RLState) (n : String) (t : ℤ) (lim : APILimit)
    (hv : validName n = true)
    (hdef : (alookup s.limits ("default")).isSome)
    (hc : alookup s.limits n = some lim) :
    ∀ b s2, checkLimit s n t = Except.ok (b, s2) →
      s2.requests = (if (alookup s.requests n).isSome
        then (aset s.requests n ((lookupD s.requests n []).filter
             (fun ts => decide (t - lim.period < ts))))
        else s.requests) ∧
      s2.limits = s.limits := by
  intro b s2 heq
  have hstrip := pyStrip_eq_self_of_validName hv
  unfold checkLimit at heq
  rw [hstrip, if_neg (validName_ne_empty hv), if_neg (by simp [hv]),
    getLimitFallback_eq hdef hc] at heq
  cases hkey : alookup s.requests n with
  | some R =>
      simp only [lookupD, hkey, Option.isSome_some, if_true, Option.getD_some,
        alookup_aset_self, Except.ok.injEq, Prod.mk.injEq] at heq
      obtain ⟨-, hs⟩ := heq
      simp only [lookupD, hkey, Option.isSome_some, if_true, Option.getD_some]
      rw [← hs]
      exact ⟨postCheck_requests .., postCheck_limits ..⟩
  | none =>
      simp only [lookupD, hkey, Option.isSome_none, Bool.false_eq_true, if_false,
        Option.getD_none, Except.ok.injEq, Prod.mk.injEq] at heq
      obtain ⟨-, hs⟩ := heq
      simp only [lookupD, hkey, Option.isSome_none, Bool.false_eq_true, if_false]
      rw [← hs]
      exact ⟨postCheck_requests .., postCheck_limits ..⟩

theorem admitStep_char (s : RLState) (n : String) (t : ℤ) (lim : APILimit)
    (hv : validName n = true)
    (hdef : (alookup s.limits ("default")).isSome)
    (hc : alookup s.limits n = some lim) :
    (admitStep s n t).limits = s.limits ∧
    lookupD (admitStep s n t).requests n []
      = (if ((((lookupD s.requests n []).filter
            (fun ts => decide (t - lim.period < ts))).length : ℤ) < lim.calls)
         then ((lookupD s.requests n []).filter
            (fun ts => decide (t - lim.period < ts))) ++ [t]
         else ((lookupD s.requests n []).filter
            (fun ts => decide (t - lim.period < ts)))) ∧
    (∀ m, m ≠ n → lookupD (admitStep s n t).requests m []
      = lookupD s.requests m []) := by
  obtain ⟨s2, hck⟩ := except_map_fst_ok (checkLimit_fst_gen s n t lim hv hdef hc)
  obtain ⟨hreq2, hlim2⟩ := checkLimit_ok_state s n t lim hv hdef hc _ _ hck
  have hs2n : lookupD s2.requests n []
      = (lookupD s.requests n []).filter (fun ts => decide (t - lim.period < ts)) := by
    rw [hreq2]
    cases hkey : alookup s.requests n with
    | some R =>
        simp only [Option.isSome_some, if_true]
        exact lookupD_aset_self ..
    | none =>
        simp only [Option.isSome_none, Bool.false_eq_true, if_false, lookupD, hkey,
          Option.getD_none, List.filter_nil]
  have hs2m : ∀ m, m ≠ n → lookupD s2.requests m [] = lookupD s.requests m [] := by
    intro m hm
    rw [hreq2]
    cases hkey : alookup s.requests n with
    | some R =>
        simp only [Option.isSome_some, if_true]
        exact lookupD_aset_ne _ _ _ _ _ (fun h => hm h.symm)
    | none => simp only [Option.isSome_none, Bool.false_eq_true, if_false]
  unfold admitStep
  rw [hck]
  by_cases hw : ((((lookupD s.requests n []).filter
      (fun ts => decide (t - lim.period < ts))).length : ℤ) < lim.calls)
  · rw [decide_eq_true hw]
    simp only [if_true, if_pos hw]
    obtain ⟨har, halim⟩ := addRequest_fst_requests s2 n t hv
      (by rw [hlim2, hc]; rfl)
    refine ⟨halim.trans hlim2, ?_, ?_⟩
    · rw [har, hs2n, lookupD_aset_self]
    · intro m hm
      rw [har, lookupD_aset_ne _ _ _ _ _ (fun h => hm h.symm), hs2m m hm]
  · rw [decide_eq_false hw]
    simp only [Bool.false_eq_true, if_false, if_neg hw]
    exact ⟨hlim2, hs2n, hs2m⟩

theorem admitLog_cons (s : RLState) (n : String) (t : ℤ) (lim : APILimit)
    (tr : List (ℤ × String))
    (hv : validName n = true)
    (hdef : (alookup s.limits ("default")).isSome)
    (hc : alookup s.limits n = some lim) :
    admitLog s ((t, n) :: tr)
      = (if ((((lookupD s.requests n []).filter
            (fun ts => decide (t - lim.period < ts))).length : ℤ) < lim.calls)
         then (n, t) :: admitLog (admitStep s n t) tr
         else admitLog (admitStep s n t) tr) := by
  obtain ⟨s2, hck⟩ := except_map_fst_ok (checkLimit_fst_gen s n t lim hv hdef hc)
  obtain ⟨hreq2, hlim2⟩ := checkLimit_ok_state s n t lim hv hdef hc _ _ hck
  have hred : redirectName s2.limits n = n := by
    unfold redirectName
    rw [hlim2, hc]
    rfl
  by_cases hw : ((((lookupD s.requests n []).filter
      (fun ts => decide (t - lim.period < ts))).length : ℤ) < lim.calls)
  · have hstep : admitStep s n t = (addRequest s2 n t).1 := by
      unfold admitStep
      rw [hck, decide_eq_true hw]
      rfl
    rw [if_pos hw, hstep]
    conv_lhs => simp only [admitLog]
    rw [hck, decide_eq_true hw]
    simp only [if_true, hred]
  · have hstep : admitStep s n t = s2 := by
      unfold admitStep
      rw [hck, decide_eq_false hw]
      rfl
    rw [if_neg hw, hstep]
    conv_lhs => simp only [admitLog]
    rw [hck, decide_eq_false hw]
    simp only [Bool.false_eq_true, if_false]

theorem admitLog_times_ge : ∀ (tr : List (ℤ × String)) (s : RLState) (c : ℤ),
    (∀ e ∈ tr, c ≤ e.1) → ∀ p ∈ admitLog s tr, c ≤ p.2
  | [], _, _, _, p, hp => absurd hp (List.not_mem_nil p)
  | e :: tr, s, c, hb, p, hp => by
      unfold admitLog at hp
      rcases hck : checkLimit s e.2 e.1 with err | pr
      · rw [hck] at hp
        exact admitLog_times_ge tr s c
          (fun e' he' => hb e' (List.mem_cons_of_mem _ he')) p hp
      · obtain ⟨w, s1⟩ := pr
        rw [hck] at hp
        cases w with
        | false =>
            simp only [Bool.false_eq_true, if_false] at hp
            exact admitLog_times_ge tr s1 c
              (fun e' he' => hb e' (List.mem_cons_of_mem _ he')) p hp
        | true =>
            simp only [if_true] at hp
            rcases List.mem_cons.mp hp with hp | hp
            · subst hp
              exact hb e (List.mem_cons_self _ _)
            · exact admitLog_times_ge tr (addRequest s1 e.2 e.1).1 c
                (fun e' he' => hb e' (List.mem_cons_of_mem _ he')) p hp

theorem logWindowCount_cons (p : String × ℤ) (log : List (String × ℤ))
    (n : String) (t per : ℤ) :
    logWindowCount (p :: log) n t per
      = logWindowCount log n t per
        + (if p.1 = n ∧ t - per < p.2 ∧ p.2 ≤ t then 1 else 0) := by
  unfold logWindowCount
  rw [List.filter_cons]
  by_cases h : (p.1 = n ∧ t - per < p.2 ∧ p.2 ≤ t)
  · simp [h]
  · simp [h]

theorem logWindowCount_zero_of_late (log : List (String × ℤ)) (n : String)
    (t per : ℤ) (h : ∀ p ∈ log, ¬ p.2 ≤ t) :
    logWindowCount log n t per = 0 := by
  unfold logWindowCount
  rw [List.length_eq_zero]
  rw [List.filter_eq_nil_iff]
  intro p hp
  simp only [decide_eq_true_eq]
  intro hcon
  exact h p hp hcon.2.2

/-- The inductive heart of claim C1: along any clock-monotone trace of
admission attempts naming valid configured services, the admissions logged by
the remaining trace inside any trailing window ending at `t ≥ now`, plus the
timestamps already stored in that window, never exceed `calls`. -/
theorem trace_bound (lims : List (String × APILimit))
    (hdef : (alookup lims ("default")).isSome) :
    ∀ (tr : List (ℤ × String)) (s : RLState) (now : ℤ),
      s.limits = lims →
      (∀ e ∈ tr, validName e.2 = true ∧ (alookup lims e.2).isSome) →
      (∀ e ∈ tr, now ≤ e.1) →
      List.Pairwise (fun a b => a.1 ≤ b.1) tr →
      WInv lims s now →
      ∀ n lim, alookup lims n = some lim → 0 ≤ lim.calls →
        ∀ t, now ≤ t →
          ((logWindowCount (admitLog s tr) n t lim.period : ℤ)
            + (windowCount (lookupD s.requests n []) t lim.period : ℤ)
            ≤ lim.calls)
  | [], s, now, _, _, _, _, hinv, n, lim, hc, hcalls, t, ht => by
      have hw := ((WInv_mono hinv ht) n lim hc).2 hcalls
      simpa [admitLog, logWindowCount] using hw
  | (t1, n1) :: tr, s, now, hlims, hnames, hbound, hsorted, hinv, n, lim, hc,
      hcalls, t, ht => by
      obtain ⟨hv1, hconf1⟩ := hnames (t1, n1) (List.mem_cons_self _ _)
      obtain ⟨lim1, hc1⟩ := Option.isSome_iff_exists.mp hconf1
      have hnow1 : now ≤ t1 := hbound (t1, n1) (List.mem_cons_self _ _)
      have hdefS : (alookup s.limits ("default")).isSome := by
        rw [hlims]; exact hdef
      have hc1S : alookup s.limits n1 = some lim1 := by
        rw [hlims]; exact hc1
      obtain ⟨hrel, hsorted'⟩ := List.pairwise_cons.mp hsorted
      obtain ⟨hstepLim, hstepSelf, hstepOther⟩ :=
        admitStep_char s n1 t1 lim1 hv1 hdefS hc1S
      have hinv1 := WInv_mono hinv hnow1
      -- the invariant survives the step
      have hinv' : WInv lims (admitStep s n1 t1) t1 := by
        intro m limm hcm
        by_cases hmn : m = n1
        · subst hmn
          have hlimeq : limm = lim1 := by
            have := hcm.symm.trans hc1
            exact Option.some.inj this
          subst hlimeq
          rw [hstepSelf]
          by_cases hadm : ((((lookupD s.requests m []).filter
              (fun ts => decide (t1 - limm.period < ts))).length : ℤ) < limm.calls)
          · rw [if_pos hadm]
            constructor
            · intro ts hts
              rcases List.mem_append.mp hts with hts | hts
              · exact le_trans
                  ((hinv1 m limm hcm).1 ts (List.mem_of_mem_filter hts)) (le_refl t1)
              · rw [List.mem_singleton.mp hts]
            · intro _
              have h1 : (windowCount ((lookupD s.requests m []).filter
                  (fun ts => decide (t1 - limm.period < ts)) ++ [t1]) t1 limm.period : ℤ)
                  = (windowCount ((lookupD s.requests m []).filter
                      (fun ts => decide (t1 - limm.period < ts))) t1 limm.period : ℤ)
                    + (if t1 - limm.period < t1 then 1 else 0) := by
                rw [windowCount_append_one]
                by_cases hx : t1 - limm.period < t1 <;> simp [hx]
              have h2 : windowCount ((lookupD s.requests m []).filter
                  (fun ts => decide (t1 - limm.period < ts))) t1 limm.period
                  ≤ ((lookupD s.requests m []).filter
                      (fun ts => decide (t1 - limm.period < ts))).length :=
                windowCount_le_length _ _ _
              rw [h1]
              by_cases hx : t1 - limm.period < t1 <;> simp only [hx, if_true, if_false] <;> omega
          · rw [if_neg hadm]
            constructor
            · intro ts hts
              exact (hinv1 m limm hcm).1 ts (List.mem_of_mem_filter hts)
            · intro hcalls'
              rw [windowCount_prune _ _ (le_refl t1)]
              exact (hinv1 m limm hcm).2 hcalls'
        · rw [hstepOther m hmn]
          exact hinv1 m limm hcm
      have hIH := trace_bound lims hdef tr (admitStep s n1 t1) t1
        (hstepLim.trans hlims)
        (fun e he => hnames e (List.mem_cons_of_mem _ he))
        (fun e he => hrel e he)
        hsorted' hinv' n lim hc hcalls
      rw [admitLog_cons s n1 t1 lim1 tr hv1 hdefS hc1S]
      by_cases hadm : ((((lookupD s.requests n1 []).filter
          (fun ts => decide (t1 - lim1.period < ts))).length : ℤ) < lim1.calls)
      · rw [if_pos hadm, logWindowCount_cons]
        by_cases htt1 : t1 ≤ t
        · have hIHt := hIH t htt1
          by_cases hmn : n1 = n
          · subst hmn
            have hlimeq : lim = lim1 := by
              have := hc.symm.trans hc1
              exact Option.some.inj this
            subst hlimeq
            have hwin : lookupD (admitStep s n1 t1).requests n1 []
                = (lookupD s.requests n1 []).filter
                    (fun ts => decide (t1 - lim.period < ts)) ++ [t1] := by
              rw [hstepSelf, if_pos hadm]
            rw [hwin] at hIHt
            rw [windowCount_append_one] at hIHt
            rw [windowCount_prune _ _ htt1] at hIHt
            simp only [true_and]
            by_cases hws : t - lim.period < t1
            · rw [if_pos ⟨hws, htt1⟩]
              rw [if_pos hws] at hIHt
              push_cast at hIHt ⊢
              omega
            · rw [if_neg (fun hcon => hws hcon.1)]
              rw [if_neg hws] at hIHt
              push_cast at hIHt ⊢
              omega
          · have hwin : lookupD (admitStep s n1 t1).requests n []
                = lookupD s.requests n [] := hstepOther n (fun h => hmn h.symm)
            rw [hwin] at hIHt
            rw [if_neg (fun hcon => hmn hcon.1)]
            push_cast at hIHt ⊢
            omega
        · have hzero : logWindowCount (admitLog (admitStep s n1 t1) tr) n t lim.period
              = 0 := by
            apply logWindowCount_zero_of_late
            intro p hp
            have := admitLog_times_ge tr (admitStep s n1 t1) t1 hrel p hp
            omega
          rw [hzero, if_neg (fun hcon => htt1 hcon.2.2)]
          have hw := ((WInv_mono hinv ht) n lim hc).2 hcalls
          push_cast
          omega
      · rw [if_neg hadm]
        by_cases htt1 : t1 ≤ t
        · have hIHt := hIH t htt1
          by_cases hmn : n1 = n
          · subst hmn
            have hlimeq : lim = lim1 := by
              have := hc.symm.trans hc1
              exact Option.some.inj this
            subst hlimeq
            have hwin : lookupD (admitStep s n1 t1).requests n1 []
                = (lookupD s.requests n1 []).filter
                    (fun ts => decide (t1 - lim.period < ts)) := by
              rw [hstepSelf, if_neg hadm]
            rw [hwin] at hIHt
            rw [windowCount_prune _ _ htt1] at hIHt
            exact hIHt
          · have hwin : lookupD (admitStep s n1 t1).requests n []
                = lookupD s.requests n [] := hstepOther n (fun h => hmn h.symm)
            rw [hwin] at hIHt
            exact hIHt
        · have hzero : logWindowCount (admitLog (admitStep s n1 t1) tr) n t lim.period
              = 0 := by
            apply logWindowCount_zero_of_late
            intro p hp
            have := admitLog_times_ge tr (admitStep s n1 t1) t1 hrel p hp
            omega
          rw [hzero]
          have hw := ((WInv_mono hinv ht) n lim hc).2 hcalls
          push_cast
          omega

/-- Claim C1 (amended): starting from a fresh state, for any clock-monotone
sequence of admission attempts (`check_limit` returning `True` followed by
`add_request`) in which EVERY attempt names a valid service present in the
limit configuration, and with `"default"` itself configured, no service with
limit `(N, T)` ever has more than `N` admissions recorded within any trailing
`T`-second window.  The original claim also asserted this for service names
not present in the configuration; that part is false — `check_limit` consults
the (never written) window under the original name while `add_request` records
under `"default"`, so unknown names are admitted without bound (see the
counterexample). -/
theorem C1_sliding_window_amended (lims : List (String × APILimit))
    (maxQueue : ℕ) (t0 : ℤ) (tr : List (ℤ × String))
    (hdef : (alookup lims ("default")).isSome)
    (hnames : ∀ e ∈ tr, validName e.2 = true ∧ (alookup lims e.2).isSome)
    (hbound : ∀ e ∈ tr, t0 ≤ e.1)
    (hsorted : List.Pairwise (fun a b => a.1 ≤ b.1) tr)
    (n : String) (lim : APILimit) (hc : alookup lims n = some lim)
    (hpos : 0 < lim.calls) (T : ℤ) :
    ((logWindowCount (admitLog (initState lims maxQueue t0) tr) n T lim.period : ℤ))
      ≤ lim.calls := by
  by_cases hT : t0 ≤ T
  · have hbase : WInv lims (initState lims maxQueue t0) t0 := by
      intro m limm hcm
      constructor
      · intro ts hts
        simp [initState, lookupD, alookup] at hts
      · intro h0
        simpa [initState, lookupD, alookup, windowCount] using h0
    have := trace_bound lims hdef tr (initState lims maxQueue t0) t0 rfl
      hnames hbound hsorted hbase n lim hc (le_of_lt hpos) T hT
    omega
  · rw [logWindowCount_zero_of_late]
    · push_cast
      omega
    · intro p hp
      have := admitLog_times_ge tr _ t0 hbound p hp
      omega

/-- A configuration consisting only of the `"default"` limit: 1 call / 60 s. -/
def cexLimsC1 : List (String × APILimit) := [(("default"), APILimit.mk 1 60)]

/-- Two back-to-back admission attempts for the unconfigured service
`"foo"`. -/
def cexTraceC1 : List (ℤ × String) := [(0, ("foo")), (0, ("foo"))]

/-- Claim C1 as stated is false at the explicit input `cexTraceC1` against
`cexLimsC1`: `"foo"` is not configured and is thus governed by the default
limit (1 call / 60 s), yet both attempts succeed and both timestamps are
recorded (under the `"default"` window key) inside one trailing 60-second
window — 2 > 1.  `check_limit` counts the always-empty window under `"foo"`
while `add_request` appends under `"default"`. -/
theorem C1_counterexample :
    (alookup cexLimsC1 ("default") = some (APILimit.mk 1 60)) ∧
    (∀ e ∈ cexTraceC1, validName e.2 = true) ∧
    List.Pairwise (fun a b => a.1 ≤ b.1) cexTraceC1 ∧
    logWindowCount (admitLog (initState cexLimsC1 10 0) cexTraceC1)
      ("default") 0 60 = 2 := by
  refine ⟨rfl, by decide, by decide, ?_⟩
  rfl

/-- A configuration with a `"default"` limit and an `"api"` limit of
2 calls / 60 s. -/
def witLimsC1 : List (String × APILimit) :=
  [(("default"), APILimit.mk 30 60), (("api"), APILimit.mk 2 60)]

/-- Three admission attempts for the configured service `"api"`. -/
def witTraceC1 : List (ℤ × String) := [(0, ("api")), (1, ("api")), (2, ("api"))]

theorem C1_sliding_window_amended_witness :
    (alookup witLimsC1 ("default")).isSome = true ∧
    (∀ e ∈ witTraceC1, validName e.2 = true ∧ (alookup witLimsC1 e.2).isSome) ∧
    (∀ e ∈ witTraceC1, (0 : ℤ) ≤ e.1) ∧
    List.Pairwise (fun a b => a.1 ≤ b.1) witTraceC1 ∧
    alookup witLimsC1 ("api") = some (APILimit.mk 2 60) ∧
    (0 : ℤ) < 2 ∧
    ((logWindowCount (admitLog (initState witLimsC1 10 0) witTraceC1)
        ("api") 5 60 : ℤ) ≤ 2) :=
  ⟨rfl, by decide, by decide, by decide, rfl, by decide,
    C1_sliding_window_amended witLimsC1 10 0 witTraceC1 rfl (by decide)
      (by decide) (by decide) ("api") (APILimit.mk 2 60) rfl (by decide) 5⟩
